import Mathlib

/-!
Verification of the Ampelos module/service orchestration core.

Shallow embedding of the core TypeScript sources:
  src/core/config-loader.ts, src/core/config-watcher.ts,
  src/core/service-manager.ts, src/core/schema-validator.ts,
  src/core/database.ts, src/core/agent-registry.ts, src/types/*.

Parsed JSON values are modelled by an inductive `Json` type whose objects
are insertion-ordered association lists (mirroring how V8 preserves key
insertion order for parsed JSON objects).  Asynchronous methods are
modelled as pure state-transition functions; unbounded recursion is made
total with an explicit fuel parameter.
-/

namespace Ampelos

/-- A parsed JSON value.  Numbers are restricted to the integer fragment,
which covers every literal occurring in the configuration examples of the
repository.  Object fields are kept in insertion order. -/
inductive Json where
  | null : Json
  | bool (b : Bool) : Json
  | num (n : Int) : Json
  | str (s : String) : Json
  | arr (xs : List Json) : Json
  | obj (fields : List (String × Json)) : Json

mutual

/-- Decidable equality for `Json` (the automatic deriving handler does not
support nested inductives, so it is written out). -/
def Json.decEq : (a b : Json) → Decidable (a = b)
  | .null, .null => isTrue rfl
  | .bool a, .bool b =>
      if h : a = b then isTrue (by rw [h]) else isFalse (by intro hc; cases hc; exact h rfl)
  | .num a, .num b =>
      if h : a = b then isTrue (by rw [h]) else isFalse (by intro hc; cases hc; exact h rfl)
  | .str a, .str b =>
      if h : a = b then isTrue (by rw [h]) else isFalse (by intro hc; cases hc; exact h rfl)
  | .arr xs, .arr ys =>
      match Json.decEqList xs ys with
      | isTrue h => isTrue (by rw [h])
      | isFalse h => isFalse (by intro hc; cases hc; exact h rfl)
  | .obj fs, .obj gs =>
      match Json.decEqFields fs gs with
      | isTrue h => isTrue (by rw [h])
      | isFalse h => isFalse (by intro hc; cases hc; exact h rfl)
  | .null, .bool _ => isFalse (by intro h; cases h)
  | .null, .num _ => isFalse (by intro h; cases h)
  | .null, .str _ => isFalse (by intro h; cases h)
  | .null, .arr _ => isFalse (by intro h; cases h)
  | .null, .obj _ => isFalse (by intro h; cases h)
  | .bool _, .null => isFalse (by intro h; cases h)
  | .bool _, .num _ => isFalse (by intro h; cases h)
  | .bool _, .str _ => isFalse (by intro h; cases h)
  | .bool _, .arr _ => isFalse (by intro h; cases h)
  | .bool _, .obj _ => isFalse (by intro h; cases h)
  | .num _, .null => isFalse (by intro h; cases h)
  | .num _, .bool _ => isFalse (by intro h; cases h)
  | .num _, .str _ => isFalse (by intro h; cases h)
  | .num _, .arr _ => isFalse (by intro h; cases h)
  | .num _, .obj _ => isFalse (by intro h; cases h)
  | .str _, .null => isFalse (by intro h; cases h)
  | .str _, .bool _ => isFalse (by intro h; cases h)
  | .str _, .num _ => isFalse (by intro h; cases h)
  | .str _, .arr _ => isFalse (by intro h; cases h)
  | .str _, .obj _ => isFalse (by intro h; cases h)
  | .arr _, .null => isFalse (by intro h; cases h)
  | .arr _, .bool _ => isFalse (by intro h; cases h)
  | .arr _, .num _ => isFalse (by intro h; cases h)
  | .arr _, .str _ => isFalse (by intro h; cases h)
  | .arr _, .obj _ => isFalse (by intro h; cases h)
  | .obj _, .null => isFalse (by intro h; cases h)
  | .obj _, .bool _ => isFalse (by intro h; cases h)
  | .obj _, .num _ => isFalse (by intro h; cases h)
  | .obj _, .str _ => isFalse (by intro h; cases h)
  | .obj _, .arr _ => isFalse (by intro h; cases h)

/-- Decidable equality for lists of `Json`. -/
def Json.decEqList : (a b : List Json) → Decidable (a = b)
  | [], [] => isTrue rfl
  | [], _ :: _ => isFalse (by intro h; cases h)
  | _ :: _, [] => isFalse (by intro h; cases h)
  | x :: xs, y :: ys =>
      match Json.decEq x y, Json.decEqList xs ys with
      | isTrue h1, isTrue h2 => isTrue (by rw [h1, h2])
      | isFalse h1, _ => isFalse (by intro hc; cases hc; exact h1 rfl)
      | _, isFalse h2 => isFalse (by intro hc; cases hc; exact h2 rfl)

/-- Decidable equality for `Json` object field lists. -/
def Json.decEqFields : (a b : List (String × Json)) → Decidable (a = b)
  | [], [] => isTrue rfl
  | [], _ :: _ => isFalse (by intro h; cases h)
  | _ :: _, [] => isFalse (by intro h; cases h)
  | (k, v) :: xs, (l, w) :: ys =>
      if hk : k = l then
        match Json.decEq v w, Json.decEqFields xs ys with
        | isTrue h1, isTrue h2 => isTrue (by rw [hk, h1, h2])
        | isFalse h1, _ => isFalse (by intro hc; cases hc; exact h1 rfl)
        | _, isFalse h2 => isFalse (by intro hc; cases hc; exact h2 rfl)
      else isFalse (by intro hc; cases hc; exact hk rfl)

end

instance : DecidableEq Json := Json.decEq

/-- First-occurrence lookup in a String-keyed association list
(models JS object property access for present keys). -/
def lookupL {α : Type} : List (String × α) → String → Option α
  | [], _ => none
  | (k, v) :: rest, key => if k = key then some v else lookupL rest key

/-- Set a key in an association list: replaces the first occurrence in
place, otherwise appends (models JS property assignment, which keeps the
insertion position of an existing key). -/
def setL {α : Type} : List (String × α) → String → α → List (String × α)
  | [], key, v => [(key, v)]
  | (k, w) :: rest, key, v =>
      if k = key then (key, v) :: rest else (k, w) :: setL rest key v

/-- JS object spread `\x7b...a, ...b\x7d`: keys of `a` in order with values
overridden by `b` where present, followed by the keys of `b` not in `a`,
in the order of `b`. -/
def jsSpreadFields (a b : List (String × Json)) : List (String × Json) :=
  (a.map (fun kv => (kv.1, (lookupL b kv.1).getD kv.2)))
    ++ b.filter (fun kv => (lookupL a kv.1).isNone)

/-- The fields of a JSON object, and `[]` for any non-object
(spreading a primitive in JS contributes no fields). -/
def entriesOf : Json → List (String × Json)
  | .obj fs => fs
  | _ => []

/-- Spread two JSON values as objects. -/
def jsSpread (a b : Json) : Json :=
  .obj (jsSpreadFields (entriesOf a) (entriesOf b))

/-- JS property access `j[k]`: `some` for a present object key, `none`
(undefined) otherwise. -/
def jsGet : Json → String → Option Json
  | .obj fs, k => lookupL fs k
  | _, _ => none

/-- Property access on a possibly-undefined value (`x?.[k]` style chains in
the sources always guard with a falsy check first, so plain composition
suffices here). -/
def jsGetO (o : Option Json) (k : String) : Option Json :=
  o.bind (fun j => jsGet j k)

/-- JS truthiness of a parsed JSON value. -/
def jsTruthy : Json → Bool
  | .null => false
  | .bool b => b
  | .num n => n != 0
  | .str s => s ≠ ""
  | .arr _ => true
  | .obj _ => true

/-- Truthiness of a possibly-undefined value (undefined is falsy). -/
def jsTruthyO : Option Json → Bool
  | none => false
  | some j => jsTruthy j

/-- JS nullish coalescing `x ?? d`: the default applies when `x` is
undefined (an absent key) or null — but not for the other falsy values
(`false`, `0`, `""`). -/
def jsNullish (o : Option Json) (dflt : Json) : Json :=
  match o with
  | some v => if v = .null then dflt else v
  | none => dflt

/-- `Object.keys(x).length` for the values that occur as persisted states:
object field count, string length (JS enumerates string indices), and `0`
for the remaining primitives. -/
def jsKeysLen : Json → Nat
  | .obj fs => fs.length
  | .str s => s.length
  | _ => 0

/-!
## Errors (src/types/errors.ts)

The runtime error hierarchy: `ServiceError`, `ConfigError` and
`ValidationError` extend `AmpelosError`; everything the core throws with a
bare `new Error(...)` is a plain JS `Error`, distinct from all three typed
classes.  Messages built by template literals are reproduced by string
concatenation; where the source interpolates data we do not model (zod
error lists, filesystem paths) the surrounding fixed text is kept and the
elided part is noted at the definition.
-/

/-- A thrown JS error value, separated by its class. -/
inductive JsErr where
  | error (msg : String) : JsErr
  | serviceError (msg : String) (serviceName : String) (agentId : String) : JsErr
  | configError (msg : String) (configPath : Option String) : JsErr
  | validationError (msg : String) (field : Option String) : JsErr
  deriving DecidableEq

/-- Whether a thrown value is a plain `Error` (not one of the typed
`AmpelosError` subclasses). -/
def JsErr.isPlainError : JsErr → Bool
  | .error _ => true
  | _ => false

/-- Whether a thrown value is a `ValidationError`. -/
def JsErr.isValidationError : JsErr → Bool
  | .validationError _ _ => true
  | _ => false

instance {ε α : Type} [DecidableEq ε] [DecidableEq α] : DecidableEq (Except ε α) :=
  fun a b =>
    match a, b with
    | .ok x, .ok y =>
      if h : x = y then isTrue (by rw [h]) else isFalse (by intro hc; cases hc; exact h rfl)
    | .error x, .error y =>
      if h : x = y then isTrue (by rw [h]) else isFalse (by intro hc; cases hc; exact h rfl)
    | .ok _, .error _ => isFalse (by intro hc; cases hc)
    | .error _, .ok _ => isFalse (by intro hc; cases hc)

/-!
## JSON Schema and the zod-based validator (src/core/schema-validator.ts)

`jsonSchemaToZod` converts a manifest `config_schema` into a zod schema and
`validateConfig` runs `safeParse` on it.  `zodParse` below fuses the two:
it returns the parsed (coerced) value on success and `none` on validation
failure, following zod semantics for the constructs the converter emits:
`z.object` requires a non-null non-array object, strips unknown keys,
omits absent optional keys and fails on absent required keys;
`z.record(z.any())` requires an object; `z.number()` accepts only numbers
(with `Json` numbers restricted to integers, `.int()` always passes);
`z.any()` accepts everything.  The human-readable zod issue list is not
modelled.
-/

/-- A JSON Schema as read from a module manifest (src/types/module.ts:
`type`, `properties`, `required`, `default`, `items`; `default` is spelled
`dflt` because `default` is a Lean keyword). -/
inductive Schema where
  | mk (stype : Option String) (properties : Option (List (String × Schema)))
       (required : Option (List String)) (dflt : Option Json)
       (items : Option Schema) : Schema

/-- The `type` field of a schema. -/
def Schema.stype : Schema → Option String
  | .mk t _ _ _ _ => t

/-- The `properties` field of a schema. -/
def Schema.properties : Schema → Option (List (String × Schema))
  | .mk _ p _ _ _ => p

/-- The `required` field of a schema. -/
def Schema.required : Schema → Option (List String)
  | .mk _ _ r _ _ => r

/-- The `default` field of a schema. -/
def Schema.dflt : Schema → Option Json
  | .mk _ _ _ d _ => d

/-- The `items` field of a schema. -/
def Schema.items : Schema → Option Schema
  | .mk _ _ _ _ i => i

/-- Run an element parser over every element of an array (the traversal
`z.array` performs), failing if any element fails. -/
def zodParseList (f : Json → Option Json) : List Json → Option (List Json)
  | [] => some []
  | x :: xs =>
    match f x, zodParseList f xs with
    | some y, some ys => some (y :: ys)
    | _, _ => none

mutual

/-- `validateConfig` of schema-validator.ts, fused with `jsonSchemaToZod`:
`some data` is `\x7bvalid: true, data\x7d`, `none` is a failed validation. -/
def zodParse : Schema → Json → Option Json
  | .mk none _ _ _ _, v => some v
  | .mk (some t) props req _ items, v =>
    if t = "string" then match v with
      | .str s => some (.str s)
      | _ => none
    else if t = "number" then match v with
      | .num n => some (.num n)
      | _ => none
    else if t = "integer" then match v with
      | .num n => some (.num n)
      | _ => none
    else if t = "boolean" then match v with
      | .bool b => some (.bool b)
      | _ => none
    else if t = "array" then match items with
      | some s => match v with
        | .arr xs => (zodParseList (fun x => zodParse s x) xs).map .arr
        | _ => none
      | none => match v with
        | .arr xs => some (.arr xs)
        | _ => none
    else if t = "object" then match props with
      | some ps => match v with
        | .obj fs => (zodParseProps ps (req.getD []) fs).map .obj
        | _ => none
      | none => match v with
        | .obj fs => some (.obj fs)
        | _ => none
    else some v

/-- Parse an object against a `z.object` shape: keys in shape order,
absent optional keys omitted, absent required keys a failure, unknown
input keys stripped. -/
def zodParseProps : List (String × Schema) → List String → List (String × Json) →
    Option (List (String × Json))
  | [], _, _ => some []
  | (k, s) :: rest, req, fs =>
    match lookupL fs k with
    | some fv =>
      match zodParse s fv, zodParseProps rest req fs with
      | some pv, some tail => some ((k, pv) :: tail)
      | _, _ => none
    | none =>
      if k ∈ req then none
      else zodParseProps rest req fs

end

/-- `validateConfig(config, schema)` of schema-validator.ts: `some` is a
successful validation carrying the coerced data, `none` a failure. -/
def validateConfig (config : Json) (schema : Schema) : Option Json :=
  zodParse schema config

/-!
## ConfigLoader (src/core/config-loader.ts)

File reads are modelled by passing parse results and an external-file
table in: `parsed = none` stands for `readFile`/`JSON.parse` throwing, and
`files : String → Option Json` maps a `config_file` path to its parsed
content (`none` = missing file).  The loader state is the `agentsConfig`
field (`null` before the first load).
-/

/-- A module manifest (src/types/module.ts). -/
structure Manifest where
  name : String
  version : String
  provides : List String
  dependencies : Option (List String)
  config_schema : Option Schema
  advertise : Option Bool

/-- `ConfigLoader.getDefaultConfig`: collect the `default` of every schema
property that declares one, then default `lazy` to `true` if undeclared. -/
def getDefaultConfig (manifest : Manifest) : Json :=
  let defaults : List (String × Json) :=
    match manifest.config_schema with
    | some sch =>
      (sch.properties.getD []).foldl
        (fun acc kv => match kv.2.dflt with
          | some d => setL acc kv.1 d
          | none => acc) []
    | none => []
  if (lookupL defaults "lazy").isSome then .obj defaults
  else .obj (defaults ++ [("lazy", .bool true)])

/-- `ConfigLoader.loadAgentsConfig` as a state transition.  The source
assigns `this.agentsConfig = JSON.parse(content)` and only afterwards
checks `if (!this.agentsConfig) throw ...`, so a file whose content parses
to a falsy value overwrites the stored config before the error is thrown;
a throwing `JSON.parse` leaves the stored config untouched. -/
def loadAgentsConfig (agentsConfig : Option Json) (parsed : Option Json) :
    Option Json × Except JsErr Json :=
  match parsed with
  | none => (agentsConfig, .error (.error "JSON parse error"))
  | some v =>
    if jsTruthy v then (some v, .ok v)
    else (some v, .error (.error "Failed to parse agents configuration"))

/-- The `config_file` path of a module config when it is a truthy string
(the `ModuleConfig` type declares it as `string`; truthiness of a string
is non-emptiness). -/
def configFilePath (moduleConfig : Json) : Option String :=
  match jsGet moduleConfig "config_file" with
  | some (.str p) => if p = "" then none else some p
  | _ => none

/-- The inline config of `resolveModuleConfig`: a shallow copy of the
module config with `config_file` deleted. -/
def inlineConfigOf (moduleConfig : Json) : List (String × Json) :=
  (entriesOf moduleConfig).filter (fun kv => kv.1 ≠ "config_file")

/-- The default-then-external-file stage of `resolveModuleConfig`: start
from manifest defaults, and when a `config_file` is referenced merge the
external file over them — throwing the missing-file plain `Error` when
the file does not exist. -/
def afterFileStep (manifest : Manifest) (files : String → Option Json)
    (moduleConfig : Json) : Except JsErr Json :=
  match configFilePath moduleConfig with
  | some p =>
    match files p with
    | some externalConfig => .ok (jsSpread (getDefaultConfig manifest) externalConfig)
    | none => .error (.error ("External config file not found: " ++ p))
  | none => .ok (getDefaultConfig manifest)

/-- `ConfigLoader.resolveModuleConfig(agentId, moduleName, manifest)`.
`agentsConfig` is the loader state and `files` the external config-file
table (path resolution relative to the configs root is identified with
the raw path).  Precedence: manifest defaults, then the external file
(`afterFileStep`), then the inline config; a schema validation failure
throws a plain `Error` (the interpolated zod issue list is elided from
the message); on success the zod-coerced data replaces the merged result
when truthy. -/
def resolveModuleConfig (agentsConfig : Option Json) (files : String → Option Json)
    (agentId moduleName : String) (manifest : Manifest) : Except JsErr Json :=
  match agentsConfig with
  | none => .error (.error "Agents config not loaded. Call loadAgentsConfig() first.")
  | some cfg =>
    match jsGetO (jsGet cfg "agents") agentId with
    | none => .error (.error ("Agent " ++ agentId ++ " not found in configuration"))
    | some agentConfig =>
      if jsTruthy agentConfig = false then
        .error (.error ("Agent " ++ agentId ++ " not found in configuration"))
      else
        match jsGetO (jsGet agentConfig "modules") moduleName with
        | none => .ok (getDefaultConfig manifest)
        | some moduleConfig =>
          if jsTruthy moduleConfig = false then .ok (getDefaultConfig manifest)
          else
            match afterFileStep manifest files moduleConfig with
            | .error e => .error e
            | .ok resolved1 =>
              let resolved2 := jsSpread resolved1 (.obj (inlineConfigOf moduleConfig))
              match manifest.config_schema with
              | none => .ok resolved2
              | some sch =>
                match validateConfig resolved2 sch with
                | none =>
                  .error (.error ("Invalid configuration for module " ++ moduleName))
                | some data =>
                  .ok (if jsTruthy data then data else resolved2)

/-!
## Scoped database (src/core/database.ts)

`Database.getDB(agentId, serviceName)` returns a `ScopedDatabaseImpl` over
the path `['states', agentId, serviceName]`.  The LowDB document
(`db.data`) is a `Json` value; `read`/`update`/`write` navigate it exactly
as the source loops do, including the in-place creation of `\x7b\x7d` for
missing intermediate keys that happens even when the navigation later
throws.  File persistence (`db.read()` / `db.write()`) rereads and
rewrites the same in-memory document and is the identity here.
-/

/-- The scoped path used by `Database.getDB`. -/
def getDBPath (agentId serviceName : String) : List String :=
  ["states", agentId, serviceName]

/-- The navigation of `ScopedDatabaseImpl.read`: descend while the current
value is a truthy object containing the key, return `\x7b\x7d` on any miss,
and apply the final `current ?? \x7b\x7d`.  (String keys are never index
properties of arrays here, so the array case is a miss.) -/
def navRead : Json → List String → Json
  | cur, [] => if cur = .null then .obj [] else cur
  | cur, k :: rest =>
    match cur with
    | .obj fs =>
      match lookupL fs k with
      | some v => navRead v rest
      | none => .obj []
    | _ => .obj []

/-- The navigation of `ScopedDatabaseImpl.update` applied to a mutator
`f`.  Returns the updated document and whether the update completed
(`false` models the thrown `Invalid database path` error).  Intermediate
objects created before a throw stay created, mirroring the in-place JS
mutation. -/
def navUpdate (cur : Json) (path : List String) (f : Json → Json) : Json × Bool :=
  match path with
  | [] => (cur, false)
  | k :: rest =>
    match rest with
    | [] =>
      match cur with
      | .obj fs =>
        let currentState :=
          match lookupL fs k with
          | some v => if v = .null then .obj [] else v
          | none => .obj []
        (.obj (setL fs k (f currentState)), true)
      | _ => (cur, false)
    | _ :: _ =>
      match cur with
      | .obj fs =>
        let child := (lookupL fs k).getD (.obj [])
        let result := navUpdate child rest f
        (.obj (setL fs k result.1), result.2)
      | _ => (cur, false)

/-- `getDB(agentId, serviceName).read()`. -/
def scopedRead (data : Json) (agentId serviceName : String) : Json :=
  navRead data (getDBPath agentId serviceName)

/-- `getDB(agentId, serviceName).write(value)` (which is
`update(() => value)`): the new document. -/
def scopedWrite (data : Json) (agentId serviceName : String) (value : Json) : Json :=
  (navUpdate data (getDBPath agentId serviceName) (fun _ => value)).1

/-!
## Agent registry (src/core/agent-registry.ts)

After `loadConfig`, the registry holds one entry per agent of the parsed
`agents.json`: its display name, `enabled` flag and the module-config
record (whose keys are the declared module list used by the service
manager).  Only the accessors the service manager consults are needed.
-/

/-- One registry entry: the validated `AgentConfig` of an agent. -/
structure AgentEntry where
  name : String
  enabled : Bool
  modulesCfg : List (String × Json)
  deriving DecidableEq

/-- The registry contents: `agentId → AgentConfig`. -/
def Registry := List (String × AgentEntry)

/-- `AgentRegistry.isEnabled`: `agent?.enabled ?? false`. -/
def isEnabled (reg : Registry) (agentId : String) : Bool :=
  match lookupL reg agentId with
  | some e => e.enabled
  | none => false

/-- `AgentRegistry.getEnabledAgents()` (as `(agentId, entry)` pairs in
registry order). -/
def getEnabledAgents (reg : Registry) : List (String × AgentEntry) :=
  reg.filter (fun p => p.2.enabled)

/-!
## Service manager (src/core/service-manager.ts)

A `BaseService` implementation is modelled by a `ServiceSpec` describing
which optional hooks it implements and how its hooks behave; a live
instance pairs a spec with the fresh object identity the factory produced
(a counter).  Hook invocations are recorded in an event log so the
theorems can talk about how often `init`, `setState` and `cleanup` ran.
`initializeService` recurses into dependencies without any visiting
marker, exactly like the source; the recursion is bounded by fuel, and
`.outOfFuel` marks executions the real code would continue by growing the
JS call stack.
-/

/-- The behaviour of one service class (src/types/service.ts hooks). -/
structure ServiceSpec where
  dependsOn : Option (List String)
  initThrows : Bool
  hasOnConfigChange : Bool
  hasSetState : Bool
  hasCleanup : Bool
  deriving DecidableEq

/-- A live service instance: object identity plus its class behaviour. -/
structure Instance where
  id : Nat
  spec : ServiceSpec
  deriving DecidableEq

/-- A loaded module record (src/types/module.ts).  `serviceFactory` is the
spec of the instances the factory constructs, when the module provides a
service. -/
structure LoadedModule where
  manifest : Manifest
  loaded : Bool
  serviceFactory : Option ServiceSpec

/-- A lifecycle or hook event observed during manager operations. -/
inductive Ev where
  | factory (serviceName : String) (instId : Nat) : Ev
  | initHook (agentId serviceName : String) (instId : Nat) : Ev
  | setStateHook (instId : Nat) : Ev
  | cleanupHook (instId : Nat) : Ev
  deriving DecidableEq

/-- The read-only collaborators of the service manager. -/
structure Env where
  modules : List (String × LoadedModule)
  registry : Registry
  agentsConfig : Option Json
  files : String → Option Json
  dbData : Json

/-- The mutable state of the service manager: the per-agent instance
cache, the fresh-object counter and the event log. -/
structure MgrState where
  services : List (String × List (String × Instance))
  counter : Nat
  log : List Ev
  deriving DecidableEq

/-- `ServiceManager.getService`: cache lookup, `null` on a miss. -/
def getService (st : MgrState) (agentId serviceName : String) : Option Instance :=
  (lookupL st.services agentId).bind (fun m => lookupL m serviceName)

/-- `ServiceManager.hasService`. -/
def hasService (st : MgrState) (agentId serviceName : String) : Bool :=
  (getService st agentId serviceName).isSome

/-- The caching step at the end of a successful `initializeService`. -/
def cacheService (st : MgrState) (agentId serviceName : String) (inst : Instance) :
    MgrState :=
  let agentMap := (lookupL st.services agentId).getD []
  { st with services := setL st.services agentId (setL agentMap serviceName inst) }

/-- `[...new Set([...a, ...b])]`: concatenation deduplicated keeping first
occurrences (JS `Set` preserves insertion order). -/
def dedupKeepFirst : List String → List String → List String
  | [], _ => []
  | x :: xs, seen =>
    if x ∈ seen then dedupKeepFirst xs seen else x :: dedupKeepFirst xs (x :: seen)

/-- The dependency set computed in `initializeService` (and in
`resolveDependencyOrder`): service-declared `dependsOn()` merged with the
manifest dependencies. -/
def allDepsOf (spec : ServiceSpec) (manifest : Manifest) : List String :=
  dedupKeepFirst (spec.dependsOn.getD [] ++ manifest.dependencies.getD []) []

/-- The outcome of an `initializeService` call. -/
inductive InitResult where
  | ok (inst : Instance) : InitResult
  | err (e : JsErr) : InitResult
  | outOfFuel : InitResult
  deriving DecidableEq

/-- The dependency loop of `initializeService`: for each dependency not in
the cache, recurse via `initF`; the first failure aborts the loop. -/
def initDeps (agentId : String)
    (initF : MgrState → String → MgrState × InitResult) :
    MgrState → List String → MgrState × Option InitResult
  | st, [] => (st, none)
  | st, d :: ds =>
    if hasService st agentId d then initDeps agentId initF st ds
    else
      match initF st d with
      | (st2, .ok _) => initDeps agentId initF st2 ds
      | (st2, .err e) => (st2, some (.err e))
      | (st2, .outOfFuel) => (st2, some .outOfFuel)

/-- `ServiceManager.initializeService(agentId, serviceName)`, fuel-bounded.
The source order is kept: cache check, module checks, `isEnabled` check,
config resolution (whose errors propagate unwrapped, being outside the
try block), factory construction, recursive dependency initialization
(no visiting marker), then the try block: `init`, state restore, caching;
the catch block runs `cleanup` best-effort and wraps the failure in a
`ServiceError` (the interpolated inner message is elided). -/
def initializeService (fuel : Nat) (env : Env) (st : MgrState)
    (agentId serviceName : String) : MgrState × InitResult :=
  match fuel with
  | 0 => (st, .outOfFuel)
  | fuel + 1 =>
    match getService st agentId serviceName with
    | some existing => (st, .ok existing)
    | none =>
      match lookupL env.modules serviceName with
      | none =>
        (st, .err (.serviceError
          ("Module " ++ serviceName ++ " not found or failed to load")
          serviceName agentId))
      | some m =>
        if m.loaded = false then
          (st, .err (.serviceError
            ("Module " ++ serviceName ++ " not found or failed to load")
            serviceName agentId))
        else
          match m.serviceFactory with
          | none =>
            (st, .err (.serviceError
              ("Module " ++ serviceName ++ " does not provide a service")
              serviceName agentId))
          | some spec =>
            if isEnabled env.registry agentId = false then
              (st, .err (.serviceError
                ("Agent " ++ agentId ++ " is not enabled") serviceName agentId))
            else
              match resolveModuleConfig env.agentsConfig env.files
                  agentId serviceName m.manifest with
              | .error e => (st, .err e)
              | .ok _config =>
                let instId := st.counter + 1
                let tempService : Instance := ⟨instId, spec⟩
                let st1 : MgrState :=
                  { st with counter := instId,
                            log := st.log ++ [.factory serviceName instId] }
                let deps := allDepsOf spec m.manifest
                match initDeps agentId
                    (fun s d => initializeService fuel env s agentId d) st1 deps with
                | (st2, some bad) => (st2, bad)
                | (st2, none) =>
                  let st3 : MgrState :=
                    { st2 with log := st2.log ++ [.initHook agentId serviceName instId] }
                  if spec.initThrows then
                    let st4 :=
                      if spec.hasCleanup then
                        { st3 with log := st3.log ++ [.cleanupHook instId] }
                      else st3
                    (st4, .err (.serviceError
                      ("Failed to initialize service " ++ serviceName)
                      serviceName agentId))
                  else
                    let st4 :=
                      if spec.hasSetState then
                        let state := scopedRead env.dbData agentId serviceName
                        if jsTruthy state && decide (0 < jsKeysLen state) then
                          { st3 with log := st3.log ++ [.setStateHook instId] }
                        else st3
                      else st3
                    (cacheService st4 agentId serviceName tempService, .ok tempService)

/-!
## Dependency ordering (ServiceManager.resolveDependencyOrder)

The private topological sort used by eager initialization.  Its recursion
is bounded by fuel; the `visiting` marker set detects cycles before fuel
could ever matter on a finite graph.  `visit` constructs a throwaway
instance just to call `dependsOn()`, so the dependency set of a node is a
pure function of the module table.
-/

/-- The accumulator of `resolveDependencyOrder`: the output `order` and
the `visited` / `visiting` marker sets. -/
structure VisitSt where
  order : List String
  visited : List String
  visiting : List String
  deriving DecidableEq

/-- A failed `visit`: the thrown circular-dependency `ServiceError`, or
fuel exhaustion (unreachable for any fuel above the graph size). -/
inductive VisitErr where
  | cycle (serviceName : String) : VisitErr
  | fuel : VisitErr
  deriving DecidableEq

/-- The dependencies `visit` recurses into before restricting to the
requested set: `dependsOn() ∪ manifest.dependencies` for a loaded module
with a service factory, and `[]` otherwise. -/
def visitDepsAll (modules : List (String × LoadedModule)) (serviceName : String) :
    List String :=
  match lookupL modules serviceName with
  | some m =>
    if m.loaded then
      match m.serviceFactory with
      | some spec => allDepsOf spec m.manifest
      | none => []
    else []
  | none => []

/-- The dependencies of `serviceName` that `visit` actually visits: those
inside the requested `serviceNames`. -/
def visitDeps (modules : List (String × LoadedModule))
    (serviceNames : List String) (serviceName : String) : List String :=
  (visitDepsAll modules serviceName).filter (fun d => serviceNames.contains d)

/-- Run `visitF` over a dependency list, aborting on the first failure
(the inner `for` loop of `visit`). -/
def visitList (visitF : String → VisitSt → Except VisitErr VisitSt) :
    List String → VisitSt → Except VisitErr VisitSt
  | [], st => .ok st
  | d :: ds, st =>
    match visitF d st with
    | .ok st2 => visitList visitF ds st2
    | .error e => .error e

/-- The recursive `visit` closure of `resolveDependencyOrder`: throw on a
node still marked visiting, skip a completed node, otherwise mark, visit
the in-set dependencies depth-first, unmark, complete and append. -/
def visit (modules : List (String × LoadedModule)) (serviceNames : List String) :
    Nat → String → VisitSt → Except VisitErr VisitSt
  | 0, _, _ => .error .fuel
  | fuel + 1, serviceName, st =>
    if serviceName ∈ st.visiting then .error (.cycle serviceName)
    else if serviceName ∈ st.visited then .ok st
    else
      let st1 : VisitSt := { st with visiting := serviceName :: st.visiting }
      match visitList (visit modules serviceNames fuel)
          (visitDeps modules serviceNames serviceName) st1 with
      | .error e => .error e
      | .ok st2 =>
        .ok { order := st2.order ++ [serviceName],
              visited := serviceName :: st2.visited,
              visiting := st2.visiting.erase serviceName }

/-- The top-level loop of `resolveDependencyOrder`: visit every requested
service not yet visited. -/
def visitRoots (modules : List (String × LoadedModule)) (serviceNames : List String)
    (fuel : Nat) : List String → VisitSt → Except VisitErr VisitSt
  | [], st => .ok st
  | n :: ns, st =>
    if n ∈ st.visited then visitRoots modules serviceNames fuel ns st
    else
      match visit modules serviceNames fuel n st with
      | .ok st2 => visitRoots modules serviceNames fuel ns st2
      | .error e => .error e

/-- `ServiceManager.resolveDependencyOrder(serviceNames, agentId)`: the
initialization order, or the thrown circular-dependency `ServiceError`. -/
def resolveDependencyOrder (fuel : Nat) (modules : List (String × LoadedModule))
    (serviceNames : List String) (agentId : String) : Except JsErr (List String) :=
  match visitRoots modules serviceNames fuel serviceNames ⟨[], [], []⟩ with
  | .ok st => .ok st.order
  | .error (.cycle s) =>
    .error (.serviceError
      ("Circular dependency detected involving service: " ++ s) s agentId)
  | .error .fuel => .error (.error "out of fuel")

/-!
## Eager initialization (ServiceManager.initializeEagerServices)
-/

/-- The eager-service subset computed per enabled agent: declared modules
that are loaded with a service factory and whose inline module config has
a falsy `lazy`.  The source reads `agentConfig.modules[moduleName]?.lazy
?? true` — only the inline config, not the resolved one — and the `??`
(`jsNullish`) defaults to `true` both when the key is absent and when it
is present with value null. -/
def eagerServicesFor (modules : List (String × LoadedModule)) (entry : AgentEntry) :
    List String :=
  (entry.modulesCfg.map Prod.fst).filter (fun moduleName =>
    match lookupL modules moduleName with
    | some m =>
      if m.loaded then
        match m.serviceFactory with
        | some _ =>
          let lazyVal := jsNullish (jsGetO (lookupL entry.modulesCfg moduleName) "lazy")
            (.bool true)
          jsTruthy lazyVal = false
        | none => false
      else false
    | none => false)

/-- Initialize the computed order sequentially, stopping at the first
failure (an `initializeService` rejection propagates out of
`initializeEagerServices`). -/
def initEagerList (fuel : Nat) (env : Env) (agentId : String) :
    MgrState → List String → MgrState × Option InitResult
  | st, [] => (st, none)
  | st, s :: rest =>
    match initializeService fuel env st agentId s with
    | (st2, .ok _) => initEagerList fuel env agentId st2 rest
    | (st2, .err e) => (st2, some (.err e))
    | (st2, .outOfFuel) => (st2, some .outOfFuel)

/-- `ServiceManager.initializeEagerServices()`: for each enabled agent,
compute the eager subset, order it with `resolveDependencyOrder` and
initialize in that order. -/
def initializeEagerServices (fuel : Nat) (env : Env) :
    MgrState → List (String × AgentEntry) → MgrState × Option InitResult
  | st, [] => (st, none)
  | st, (agentId, entry) :: rest =>
    let eager := eagerServicesFor env.modules entry
    match resolveDependencyOrder fuel env.modules eager agentId with
    | .error e => (st, some (.err e))
    | .ok initOrder =>
      match initEagerList fuel env agentId st initOrder with
      | (st2, none) => initializeEagerServices fuel env st2 rest
      | (st2, some bad) => (st2, some bad)

/-!
## Config watcher (src/core/config-watcher.ts)

`reloadAffectedAgents(oldConfig, newConfig)` iterates the agents of the
new config, skips agents and modules absent from the old config (adding
requires a restart), compares each surviving module config pair and, on a
difference, runs `handleModuleConfigChange`, which invokes the live
instance `onConfigChange` hook when present (hook failures are swallowed).
The source compares `JSON.stringify` outputs; on parsed `Json` values —
insertion-ordered fields, no duplicate keys, and a stable serializer —
that comparison coincides with structural equality of the representation,
which is used directly.  The hook invocations are returned as a list of
events in invocation order.
-/

/-- One `onConfigChange` invocation performed by the watcher. -/
structure InvEv where
  agentId : String
  moduleName : String
  oldConfig : Json
  newConfig : Json
  deriving DecidableEq

/-- Flatten a list-valued map (the nested `for` loops of the watcher). -/
def flatMapL {α β : Type} (f : α → List β) : List α → List β
  | [] => []
  | x :: xs => f x ++ flatMapL f xs

/-- `ConfigWatcher.handleModuleConfigChange`: invoke the hook of the live
instance when it has one; no instance or no hook means no invocation. -/
def handleModuleConfigChange (st : MgrState) (agentId moduleName : String)
    (oldConfig newConfig : Json) : List InvEv :=
  match getService st agentId moduleName with
  | none => []
  | some svc =>
    if svc.spec.hasOnConfigChange then [⟨agentId, moduleName, oldConfig, newConfig⟩]
    else []

/-- `ConfigWatcher.reloadAffectedAgents(oldConfig, newConfig)`: the
`onConfigChange` invocations it performs, in order. -/
def reloadAffectedAgents (st : MgrState) (oldConfig newConfig : Json) : List InvEv :=
  flatMapL (fun ap =>
    let agentId := ap.1
    match jsGetO (jsGet oldConfig "agents") agentId with
    | none => []
    | some oldAgentConfig =>
      if jsTruthy oldAgentConfig = false then []
      else
        flatMapL (fun mp =>
          let moduleName := mp.1
          match jsGetO (jsGet oldAgentConfig "modules") moduleName with
          | none => []
          | some oldModuleConfig =>
            if jsTruthy oldModuleConfig = false then []
            else if oldModuleConfig ≠ mp.2 then
              handleModuleConfigChange st agentId moduleName oldModuleConfig mp.2
            else [])
          (entriesOf ((jsGet ap.2 "modules").getD (.obj []))))
    (entriesOf ((jsGet newConfig "agents").getD (.obj [])))

/-- `ConfigWatcher.handleConfigChange()`: one reload pass, as a transition
on the loader state.  Inputs: the loader state before the pass and the
parse result of the (changed) config file; output: the loader state after
the pass and the `onConfigChange` invocations performed.  The source
first awaits `loadAgentsConfig()` — which overwrites
`this.agentsConfig` — and only then reads the "old" config through
`getAgentsConfig()`, so `oldConfig` is the freshly stored new config.  On
a load failure the catch block retries `loadAgentsConfig()` on the same
(still changed) file and performs no invocations.  The `isReloading`
guard, the debounce sleep and the trailing `agentRegistry.loadConfig()`
do not affect which hooks are invoked and are elided. -/
def handleConfigChange (agentsConfig : Option Json) (parsed : Option Json)
    (st : MgrState) : Option Json × List InvEv :=
  match loadAgentsConfig agentsConfig parsed with
  | (cfg1, .ok newConfig) =>
    match cfg1 with
    | none => (cfg1, [])
    | some oldConfig =>
      if jsTruthy oldConfig = false then (cfg1, [])
      else (cfg1, reloadAffectedAgents st oldConfig newConfig)
  | (cfg1, .error _) =>
    ((loadAgentsConfig cfg1 parsed).1, [])

/-!
## Concurrent first calls (section 5 of the spec)

`initializeService` is async: its synchronous prefix ends at the cache
check, and `await`s (config resolution, the `init` hook) separate that
check from the cache write at the end.  Two concurrent calls for one
(agent, service) pair are modelled as two cooperative tasks sharing the
cache; each task steps through the phases of `initializeService` for a
dependency-free service, and a schedule says which task runs at each
yield point.  There is no in-flight promise table in the source, so the
phase after the cache check constructs and initializes unconditionally.
-/

/-- The progress of one call: not yet run, past the cache-miss check, or
returned with an instance id. -/
inductive Phase where
  | start : Phase
  | checked : Phase
  | done (result : Nat) : Phase
  deriving DecidableEq

/-- The shared state of two concurrent `initializeService` calls for the
same (agent, service) pair: the cache slot, the fresh-object counter, the
ids on which the `init` hook has run, and both task phases. -/
structure CCState where
  cache : Option Nat
  counter : Nat
  initLog : List Nat
  t1 : Phase
  t2 : Phase
  deriving DecidableEq

/-- Run one task for one scheduling slot.  From `start`: the cache check —
a hit returns the cached instance, a miss proceeds past the check into
the awaited region.  From `checked`: construct a fresh instance, run its
`init` hook, write the cache and return it (the remainder of the call).
A finished task does nothing. -/
def ccStep (c : CCState) (first : Bool) : CCState :=
  let phase := if first then c.t1 else c.t2
  let setPhase : CCState → Phase → CCState := fun s p =>
    if first then { s with t1 := p } else { s with t2 := p }
  match phase with
  | .start =>
    match c.cache with
    | some cached => setPhase c (.done cached)
    | none => setPhase c .checked
  | .checked =>
    let inst := c.counter + 1
    setPhase { c with counter := inst, initLog := c.initLog ++ [inst],
                      cache := some inst } (.done inst)
  | .done _ => c

/-- Run a schedule (`true` = first task) from a state. -/
def ccRun (c : CCState) (sched : List Bool) : CCState :=
  sched.foldl ccStep c

/-- Both tasks about to make their first call on an empty cache. -/
def ccStart : CCState :=
  { cache := none, counter := 0, initLog := [], t1 := .start, t2 := .start }

/-!
## Concrete scenarios used by the claims

Shared fixtures: an empty manager state, a service spec with no optional
hooks, and the module tables, registries and configs of the individual
claim scenarios.
-/

/-- The manager state at startup: empty cache, no events. -/
def st0 : MgrState := ⟨[], 0, []⟩

/-- A service implementing only the mandatory `init` hook, succeeding. -/
def specPlain : ServiceSpec := ⟨none, false, false, false, false⟩

/-- A service whose `init` succeeds and which implements
`onConfigChange`. -/
def specWithHook : ServiceSpec := ⟨none, false, true, false, false⟩

/-- Manifest of a module `A` with manifest dependency `B`. -/
def mfA : Manifest := ⟨"A", "1.0.0", ["service"], some ["B"], none, none⟩

/-- Manifest of a module `B` with manifest dependency `A`. -/
def mfB : Manifest := ⟨"B", "1.0.0", ["service"], some ["A"], none, none⟩

/-- A module table whose dependency graph is the two-cycle `A ↔ B`. -/
def modsC1 : List (String × LoadedModule) :=
  [("A", ⟨mfA, true, some specPlain⟩), ("B", ⟨mfB, true, some specPlain⟩)]

/-- A registry with one enabled agent `a1` declaring `A` and `B`. -/
def regC1 : Registry := [("a1", ⟨"Agent One", true, [("A", .obj []), ("B", .obj [])]⟩)]

/-- The parsed agents.json matching `regC1`. -/
def loaderC1 : Option Json :=
  some (.obj [("agents", .obj [("a1", .obj [("name", .str "Agent One"),
    ("enabled", .bool true), ("modules", .obj [("A", .obj []), ("B", .obj [])])])])])

/-- The environment of the cyclic-dependency scenario. -/
def envC1 : Env := ⟨modsC1, regC1, loaderC1, fun _ => none, .obj []⟩

/-- Claim C7 scenario: a schema whose property `x` declares default 1
(no `type` constraint at the top level, so validation passes the merged
object through). -/
def schC7 : Schema :=
  .mk none (some [("x", .mk (some "number") none none (some (.num 1)) none)]) none none none

/-- Claim C7 scenario: the manifest carrying `schC7`. -/
def mfC7 : Manifest := ⟨"mod", "1.0.0", ["service"], none, some schC7, none⟩

/-- Claim C7 scenario: inline agent config `\x7bconfig_file, y: 4\x7d`. -/
def modCfgC7 : Json := .obj [("config_file", .str "mod.json"), ("y", .num 4)]

/-- Claim C7 scenario: the loaded agents config declaring `mod` for
agent `a1`. -/
def loaderC7 : Option Json :=
  some (.obj [("agents", .obj [("a1", .obj [("name", .str "Agent One"),
    ("enabled", .bool true), ("modules", .obj [("mod", modCfgC7)])])])])

/-- Claim C7 scenario: the external config file `\x7bx: 2, y: 3\x7d`. -/
def filesC7 : String → Option Json :=
  fun p => if p = "mod.json" then some (.obj [("x", .num 2), ("y", .num 3)]) else none

/-- Claim C8 scenario: schema requiring a numeric `max`. -/
def schC8 : Schema :=
  .mk (some "object") (some [("max", .mk (some "number") none none none none)])
    (some ["max"]) none none

/-- Claim C8 scenario: the manifest of module `calc` carrying `schC8`. -/
def mfC8 : Manifest := ⟨"calc", "1.0.0", ["service"], none, some schC8, none⟩

/-- Claim C8 scenario: agents config giving `calc` the inline config
`\x7bmax: "oops"\x7d`, which fails the numeric schema. -/
def loaderC8 : Option Json :=
  some (.obj [("agents", .obj [("a1", .obj [("name", .str "A"),
    ("enabled", .bool true), ("modules", .obj [("calc", .obj [("max", .str "oops")])])])])])

/-- Claim C8 scenario, external-file variant: agents config referencing
`calc.json` for module `calc`. -/
def loaderC8f : Option Json :=
  some (.obj [("agents", .obj [("a1", .obj [("name", .str "A"),
    ("enabled", .bool true),
    ("modules", .obj [("calc", .obj [("config_file", .str "calc.json")])])])])])

/-- Claim C8 scenario: the external config file carrying the
schema-violating `\x7bmax: "oops"\x7d`. -/
def filesC8 : String → Option Json :=
  fun p => if p = "calc.json" then some (.obj [("max", .str "oops")]) else none

/-- Claim C6 scenario: schema declaring `lazy` with manifest default
`false`. -/
def schC6 : Schema :=
  .mk none (some [("lazy", .mk (some "boolean") none none (some (.bool false)) none)])
    none none none

/-- Claim C6 scenario: the manifest of module `M` carrying `schC6`. -/
def mfC6 : Manifest := ⟨"M", "1.0.0", ["service"], none, some schC6, none⟩

/-- Claim C6 scenario: module table with the single module `M`. -/
def modsC6 : List (String × LoadedModule) := [("M", ⟨mfC6, true, some specPlain⟩)]

/-- Claim C6 scenario: enabled agent declaring `M` with the empty inline
config (so `lazy` is undeclared inline and declared `false` in the
manifest defaults). -/
def entryC6 : AgentEntry := ⟨"Agent One", true, [("M", .obj [])]⟩

/-- Claim C6 scenario: the agents config matching `entryC6`. -/
def loaderC6 : Option Json :=
  some (.obj [("agents", .obj [("a1", .obj [("name", .str "Agent One"),
    ("enabled", .bool true), ("modules", .obj [("M", .obj [])])])])])

/-- Claim C6 scenario: the full environment. -/
def envC6 : Env := ⟨modsC6, [("a1", entryC6)], loaderC6, fun _ => none, .obj []⟩

/-- Manifest of a dependency-free module `S1`. -/
def mfS1 : Manifest := ⟨"S1", "1.0.0", ["service"], none, none, none⟩

/-- Manifest of a module `S2` with manifest dependency `S1`. -/
def mfS2 : Manifest := ⟨"S2", "1.0.0", ["service"], some ["S1"], none, none⟩

/-- Module table of the acyclic scenario `S2 → S1`. -/
def modsS : List (String × LoadedModule) :=
  [("S1", ⟨mfS1, true, some specPlain⟩), ("S2", ⟨mfS2, true, some specPlain⟩)]

/-- Environment with the single dependency-free module `S1` and one
enabled agent `a1`. -/
def envS1 : Env :=
  ⟨[("S1", ⟨mfS1, true, some specPlain⟩)],
   [("a1", ⟨"Agent One", true, [("S1", .obj [])]⟩)],
   some (.obj [("agents", .obj [("a1", .obj [("name", .str "Agent One"),
     ("enabled", .bool true), ("modules", .obj [("S1", .obj [])])])])]),
   fun _ => none, .obj []⟩

/-- Environment for the disabled-agent scenario: module `S1` is loaded
with a factory, but agent `a1` is disabled in the registry. -/
def envC10 : Env :=
  ⟨[("S1", ⟨mfS1, true, some specPlain⟩)],
   [("a1", ⟨"Agent One", false, [("S1", .obj [])]⟩)],
   some (.obj [("agents", .obj [("a1", .obj [("name", .str "Agent One"),
     ("enabled", .bool false), ("modules", .obj [("S1", .obj [])])])])]),
   fun _ => none, .obj []⟩

/-- A manager state in which an instance of `S1` is already cached for
agent `a1` (reachable by initializing while the agent was enabled and
then reloading a config that disables it). -/
def stCachedC10 : MgrState := ⟨[("a1", [("S1", ⟨1, specPlain⟩)])], 1, []⟩

/-- The manager state after one successful `initializeService` of `S1`
for agent `a1` in `envS1`: the instance is cached and the log shows one
factory call and one `init` invocation. -/
def stC5 : MgrState :=
  ⟨[("a1", [("S1", ⟨1, specPlain⟩)])], 1, [.factory "S1" 1, .initHook "a1" "S1" 1]⟩

/-- A store document with state under both agents `agA` and `agB` for
service `S`. -/
def dbC9 : Json :=
  .obj [("states", .obj [("agA", .obj [("S", .obj [("k", .num 1)])]),
                         ("agB", .obj [("S", .obj [("k", .num 7)])])])]

/-- Old agents config for the watcher scenario: agent `a1` with modules
`M` (`x: 1`) and `N` (`y: 5`). -/
def oldC2 : Json :=
  .obj [("agents", .obj [("a1", .obj [("name", .str "Agent One"),
    ("enabled", .bool true),
    ("modules", .obj [("M", .obj [("x", .num 1)]), ("N", .obj [("y", .num 5)])])])])]

/-- New agents config for the watcher scenario: `M` changed to `x: 2`,
`N` unchanged. -/
def newC2 : Json :=
  .obj [("agents", .obj [("a1", .obj [("name", .str "Agent One"),
    ("enabled", .bool true),
    ("modules", .obj [("M", .obj [("x", .num 2)]), ("N", .obj [("y", .num 5)])])])])]

/-- Manager state for the watcher scenario: live instances of `M` and `N`
for `a1`, both implementing `onConfigChange`. -/
def stC2 : MgrState :=
  ⟨[("a1", [("M", ⟨1, specWithHook⟩), ("N", ⟨2, specWithHook⟩)])], 2, []⟩

/-- Two key paths that share a (possibly empty) prefix and then disagree:
the write path of one scoped database and the read path of another. -/
inductive Diverge : List String → List String → Prop where
  | head {k1 k2 : String} {t1 t2 : List String} (h : k1 ≠ k2) :
      Diverge (k1 :: t1) (k2 :: t2)
  | cons {k : String} {t1 t2 : List String} (h : Diverge t1 t2) :
      Diverge (k :: t1) (k :: t2)

/-- An initialization order built left to right such that every appended
service already has all of its (in-set) dependencies listed before it —
the defining shape of the order `resolveDependencyOrder` constructs. -/
inductive GoodOrder (deps : String → List String) : List String → Prop where
  | nil : GoodOrder deps []
  | snoc {L : List String} {s : String} (h : GoodOrder deps L)
      (hdeps : ∀ d ∈ deps s, d ∈ L) : GoodOrder deps (L ++ [s])

/-- The invariant of the `resolveDependencyOrder` accumulator: `visited`
and `order` list the same services, and `order` is dependency-closed in
the `GoodOrder` sense. -/
def StInv (modules : List (String × LoadedModule)) (serviceNames : List String)
    (st : VisitSt) : Prop :=
  (∀ x ∈ st.order, x ∈ st.visited) ∧ (∀ x ∈ st.visited, x ∈ st.order) ∧
  GoodOrder (visitDeps modules serviceNames) st.order

/-- What one successful `visit` call guarantees: the visiting markers are
restored, `visited` and `order` only grow, the visited node is completed,
every newly completed node is the node itself or lies in the requested
set, and the accumulator invariant is preserved. -/
def VOk (modules : List (String × LoadedModule)) (serviceNames : List String)
    (name : String) (st st' : VisitSt) : Prop :=
  st'.visiting = st.visiting ∧
  (∀ x ∈ st.visited, x ∈ st'.visited) ∧
  (∀ x ∈ st.order, x ∈ st'.order) ∧
  name ∈ st'.visited ∧
  (∀ x ∈ st'.visited, x ∈ st.visited ∨ x = name ∨ x ∈ serviceNames) ∧
  (StInv modules serviceNames st → StInv modules serviceNames st')

/-- The reachable configurations of two concurrent first calls after both
have been scheduled at least once: either both are past the cache-miss
check with no `init` run yet, or one has finished on a fresh instance
while the other is still past its check, or both have finished on
distinct instances with `init` run twice. -/
def CInv (c : CCState) : Prop :=
  (c.t1 = .checked ∧ c.t2 = .checked ∧ c.initLog = []) ∨
  (∃ a, c.t1 = .done a ∧ c.t2 = .checked ∧ c.initLog = [a] ∧ a ≤ c.counter) ∨
  (∃ b, c.t1 = .checked ∧ c.t2 = .done b ∧ c.initLog = [b] ∧ b ≤ c.counter) ∨
  (∃ a b, c.t1 = .done a ∧ c.t2 = .done b ∧ a ≠ b ∧ c.initLog.length = 2)

/-!
## Association-list lemmas
-/

/-- Looking up the key just set returns the new value. -/
theorem lookupL_setL_self {α : Type} (l : List (String × α)) (k : String) (v : α) :
    lookupL (setL l k v) k = some v := by
  induction l with
  | nil => simp [setL, lookupL]
  | cons hd tl ih =>
    by_cases h : hd.1 = k
    · simp [setL, lookupL, h]
    · simp [setL, lookupL, h, ih]

/-- Setting one key does not change the lookup of another. -/
theorem lookupL_setL_ne {α : Type} (l : List (String × α)) (k k' : String) (v : α)
    (h : k ≠ k') : lookupL (setL l k v) k' = lookupL l k' := by
  induction l with
  | nil => simp [setL, lookupL, h]
  | cons hd tl ih =>
    by_cases hh : hd.1 = k
    · simp [setL, lookupL, hh, h]
    · by_cases hk' : hd.1 = k'
      · simp [setL, lookupL, hh, hk', Ne.symm h]
      · simp [setL, lookupL, hh, hk', ih]

/-- Membership in `flatMapL`. -/
theorem mem_flatMapL {α β : Type} (f : α → List β) (l : List α) (x : β) :
    x ∈ flatMapL f l ↔ ∃ a, a ∈ l ∧ x ∈ f a := by
  induction l with
  | nil => simp [flatMapL]
  | cons hd tl ih =>
    simp only [flatMapL, List.mem_append, ih, List.mem_cons]
    constructor
    · rintro (hx | ⟨a, ha, hx⟩)
      · exact ⟨hd, Or.inl rfl, hx⟩
      · exact ⟨a, Or.inr ha, hx⟩
    · rintro ⟨a, (rfl | ha), hx⟩
      · exact Or.inl hx
      · exact Or.inr ⟨a, ha, hx⟩

/-- In a list whose keys are `Nodup`, a member pair is determined by its
key via `lookupL`. -/
theorem lookupL_eq_of_mem_of_nodup {α : Type} (l : List (String × α))
    (hnd : (l.map Prod.fst).Nodup) (k : String) (v : α) (hmem : (k, v) ∈ l) :
    lookupL l k = some v := by
  induction l with
  | nil => simp at hmem
  | cons hd tl ih =>
    simp only [List.map_cons, List.nodup_cons] at hnd
    rcases List.mem_cons.mp hmem with heq | hmem'
    · subst heq
      simp [lookupL]
    · have hk : hd.1 ≠ k := by
        intro hk
        exact hnd.1 (hk ▸ List.mem_map.mpr ⟨(k, v), hmem', rfl⟩)
      simp [lookupL, hk, ih hnd.2 hmem']

/-- `getService` after `cacheService` for the same pair returns the cached
instance. -/
theorem getService_cacheService_self (st : MgrState) (agentId serviceName : String)
    (inst : Instance) :
    getService (cacheService st agentId serviceName inst) agentId serviceName =
      some inst := by
  simp [getService, cacheService, lookupL_setL_self]

/-- The dependency loop never reports a successful instance as its abort
reason: it aborts only with an error or fuel exhaustion. -/
theorem initDeps_not_ok (agentId : String)
    (initF : MgrState → String → MgrState × InitResult) (ds : List String) :
    ∀ st inst, (initDeps agentId initF st ds).2 ≠ some (.ok inst) := by
  intro st inst
  induction ds generalizing st with
  | nil => simp [initDeps]
  | cons d rest ih =>
    by_cases hc : hasService st agentId d
    · simpa [initDeps, hc] using ih st
    · simp only [initDeps, hc, if_false]
      rcases hr : initF st d with ⟨st', r⟩
      cases r with
      | ok i => simpa using ih st'
      | err e => simp
      | outOfFuel => simp

/-!
## Claim C7 — config precedence
-/

/-- Claim C7: for a module with manifest default `\x7bx: 1\x7d`, external
config file `\x7bx: 2, y: 3\x7d` and inline agent config `\x7by: 4\x7d`,
`resolveModuleConfig` returns a config with `x = 2` and `y = 4` (inline
overrides file, file overrides defaults, shallow merge; the resolved
object also carries the implicit `lazy: true` default). -/
theorem C7_config_precedence :
    resolveModuleConfig loaderC7 filesC7 "a1" "mod" mfC7 =
      .ok (.obj [("x", .num 2), ("lazy", .bool true), ("y", .num 4)]) ∧
    (resolveModuleConfig loaderC7 filesC7 "a1" "mod" mfC7).toOption.bind
      (fun cfg => jsGet cfg "x") = some (.num 2) ∧
    (resolveModuleConfig loaderC7 filesC7 "a1" "mod" mfC7).toOption.bind
      (fun cfg => jsGet cfg "y") = some (.num 4) := by
  refine ⟨?_, ?_, ?_⟩ <;> decide

/-!
## Claim C3 — failed reload and the live config
-/

/-- Claim C3 (code bug): a reload whose content makes `JSON.parse` throw
leaves the stored config untouched, but a reload whose content parses to
the falsy value `null` overwrites the stored agents config with `null`
before the failure is thrown — afterwards the loader no longer returns
the previously loaded config, contradicting the claim that a failed
reload never mutates the live config. -/
theorem C3_failed_reload_clobbers_config :
    (∀ prev : Option Json, (loadAgentsConfig prev none).1 = prev) ∧
    (loadAgentsConfig (some (.obj [("agents", .obj [])])) (some .null)).2 =
      .error (.error "Failed to parse agents configuration") ∧
    (loadAgentsConfig (some (.obj [("agents", .obj [])])) (some .null)).1 =
      some .null ∧
    some Json.null ≠ some (Json.obj [("agents", .obj [])]) :=
  ⟨fun _ => rfl, rfl, rfl, by decide⟩

/-!
## Claim C10 — disabled or absent agents
-/

/-- Claim C10, counterexample to the universal statement: with agent `a1`
disabled in the registry but an `S1` instance already cached for it,
`initializeService` returns the cached instance instead of throwing the
`ServiceError` — the cache check at the top of the method precedes the
`isEnabled` check. -/
theorem C10_counterexample :
    isEnabled envC10.registry "a1" = false ∧
    initializeService 5 envC10 stCachedC10 "a1" "S1" =
      (stCachedC10, .ok ⟨1, specPlain⟩) :=
  ⟨rfl, rfl⟩

/-- Claim C10 as amended: when no instance is cached for the pair, the
module is loaded with a service factory, and the agent is absent or
disabled (`isEnabled` false covers both), `initializeService` returns the
`ServiceError` carrying the service name and agent id with the manager
state unchanged — so no factory call, no lifecycle hook and no caching
happened. -/
theorem C10_disabled_agent_error (fuel : Nat) (env : Env) (st : MgrState)
    (agentId serviceName : String) (m : LoadedModule) (spec : ServiceSpec)
    (hcache : getService st agentId serviceName = none)
    (hm : lookupL env.modules serviceName = some m)
    (hl : m.loaded = true)
    (hf : m.serviceFactory = some spec)
    (he : isEnabled env.registry agentId = false) :
    initializeService (fuel + 1) env st agentId serviceName =
      (st, .err (.serviceError ("Agent " ++ agentId ++ " is not enabled")
        serviceName agentId)) := by
  simp [initializeService, hcache, hm, hl, hf, he]

/-- Witness for `C10_disabled_agent_error` at the concrete disabled-agent
environment with an empty cache. -/
theorem C10_witness :
    initializeService 5 envC10 st0 "a1" "S1" =
      (st0, .err (.serviceError ("Agent " ++ "a1" ++ " is not enabled") "S1" "a1")) :=
  C10_disabled_agent_error 4 envC10 st0 "a1" "S1"
    ⟨mfS1, true, some specPlain⟩ specPlain rfl rfl rfl rfl rfl

/-!
## Claim C8 — validation failure error type
-/

/-- Claim C8, counterexample: a merged config violating the schema makes
`resolveModuleConfig` throw a plain `Error` (`new Error(...)` in the
source), not a `ValidationError` — the typed class exists in
src/types/errors.ts but is not used here. -/
theorem C8_counterexample :
    resolveModuleConfig loaderC8 (fun _ => none) "a1" "calc" mfC8 =
      .error (.error "Invalid configuration for module calc") ∧
    JsErr.isPlainError (.error "Invalid configuration for module calc") = true ∧
    JsErr.isValidationError (.error "Invalid configuration for module calc") = false := by
  refine ⟨?_, ?_, ?_⟩ <;> decide

/-- Claim C8 as amended: whenever the default-and-external-file stage
produces a base config (no `config_file`, or an existing one — `base` is
its result), a merged config failing the manifest schema makes
`resolveModuleConfig` throw a plain `Error` naming the module (not the
system `ValidationError` type), and a merged config passing the schema
yields the schema-coerced data (falling back to the merged object for a
falsy coercion result, which no object-valued config produces). -/
theorem C8_plain_error_or_coerced (agentsConfig : Option Json) (cfg : Json)
    (files : String → Option Json) (agentId moduleName : String)
    (manifest : Manifest) (ac mc base : Json) (sch : Schema)
    (hcfg : agentsConfig = some cfg)
    (hagent : jsGetO (jsGet cfg "agents") agentId = some ac)
    (htra : jsTruthy ac = true)
    (hmc : jsGetO (jsGet ac "modules") moduleName = some mc)
    (htrm : jsTruthy mc = true)
    (hfile : afterFileStep manifest files mc = .ok base)
    (hsch : manifest.config_schema = some sch) :
    (validateConfig (jsSpread base (.obj (inlineConfigOf mc))) sch = none →
      resolveModuleConfig agentsConfig files agentId moduleName manifest =
        .error (.error ("Invalid configuration for module " ++ moduleName))) ∧
    (∀ data, validateConfig (jsSpread base (.obj (inlineConfigOf mc))) sch = some data →
      resolveModuleConfig agentsConfig files agentId moduleName manifest =
        .ok (if jsTruthy data then data
             else jsSpread base (.obj (inlineConfigOf mc)))) := by
  subst hcfg
  constructor
  · intro hval
    simp [resolveModuleConfig, hagent, htra, hmc, htrm, hfile, hsch, hval]
  · intro data hval
    simp [resolveModuleConfig, hagent, htra, hmc, htrm, hfile, hsch, hval]

/-- Witness for `C8_plain_error_or_coerced` at the external-file variant:
the config file `calc.json` contributes `\x7bmax: "oops"\x7d`, the merged
result fails the numeric schema, and the thrown error is a plain
`Error`. -/
theorem C8_witness :
    resolveModuleConfig loaderC8f filesC8 "a1" "calc" mfC8 =
      .error (.error ("Invalid configuration for module " ++ "calc")) :=
  (C8_plain_error_or_coerced loaderC8f (.obj [("agents", .obj [("a1", .obj [("name", .str "A"),
      ("enabled", .bool true),
      ("modules", .obj [("calc", .obj [("config_file", .str "calc.json")])])])])])
    filesC8 "a1" "calc" mfC8
    (.obj [("name", .str "A"), ("enabled", .bool true),
      ("modules", .obj [("calc", .obj [("config_file", .str "calc.json")])])])
    (.obj [("config_file", .str "calc.json")])
    (jsSpread (getDefaultConfig mfC8) (.obj [("max", .str "oops")])) schC8
    rfl (by decide) (by decide) (by decide) (by decide) (by decide)
    rfl).1 (by decide)

/-!
## Claim C5 — sequential idempotence
-/

/-- Claim C5: once an instance is cached for a pair, `initializeService`
returns it with the manager state (including the event log) unchanged, so
`init` is not invoked again; and a successful call always leaves its
returned instance in the cache — together, repeated calls without
teardown return the identical instance and run `init` exactly once. -/
theorem C5_idempotent (fuel : Nat) (env : Env) (st : MgrState)
    (agentId serviceName : String) :
    (∀ inst, getService st agentId serviceName = some inst →
      initializeService (fuel + 1) env st agentId serviceName = (st, .ok inst)) ∧
    (∀ st2 inst, initializeService fuel env st agentId serviceName = (st2, .ok inst) →
      getService st2 agentId serviceName = some inst) := by
  constructor
  · intro inst h
    simp [initializeService, h]
  · intro st2 inst h
    match fuel with
    | 0 => simp [initializeService] at h
    | f + 1 =>
      simp only [initializeService] at h
      split at h
      · -- cache hit: the call returned the cached instance unchanged
        rename_i existing heq
        simp only [Prod.mk.injEq, InitResult.ok.injEq] at h
        rcases h with ⟨rfl, rfl⟩
        exact heq
      · rename_i hnone
        split at h
        · simp at h
        · rename_i m hm
          split at h
          · simp at h
          · split at h
            · simp at h
            · rename_i hl spec hf
              split at h
              · simp at h
              · rename_i he
                split at h
                · simp at h
                · rename_i config hr
                  split at h
                  · -- the dependency loop aborted: never with an ok result
                    rename_i st2' bad hd
                    simp only [Prod.mk.injEq] at h
                    rcases h with ⟨rfl, rfl⟩
                    exact absurd (congrArg Prod.snd hd)
                      (initDeps_not_ok agentId
                        (fun s d => initializeService f env s agentId d)
                        (allDepsOf spec m.manifest) _ inst)
                  · rename_i st2' hd
                    split at h
                    · simp at h
                    · -- success: the returned instance was just cached
                      simp only [Prod.mk.injEq, InitResult.ok.injEq] at h
                      rcases h with ⟨rfl, rfl⟩
                      exact getService_cacheService_self _ agentId serviceName _

/-- Witness for `C5_idempotent`: the first call in `envS1` produces
`stC5` with instance 1; the repeated call returns the identical instance
with the state and log unchanged, and the instance is cached. -/
theorem C5_witness :
    initializeService 5 envS1 stC5 "a1" "S1" = (stC5, .ok ⟨1, specPlain⟩) ∧
    getService stC5 "a1" "S1" = some ⟨1, specPlain⟩ :=
  ⟨(C5_idempotent 4 envS1 stC5 "a1" "S1").1 ⟨1, specPlain⟩ rfl,
   (C5_idempotent 5 envS1 st0 "a1" "S1").2 stC5 ⟨1, specPlain⟩ rfl⟩

/-!
## Claim C4 — concurrent first calls
-/

/-- One scheduling step preserves the reachable-configuration invariant
of two concurrent first calls. -/
theorem ccStep_preserves (c : CCState) (who : Bool) (h : CInv c) :
    CInv (ccStep c who) := by
  rcases h with ⟨h1, h2, h3⟩ | ⟨a, h1, h2, h3, h4⟩ | ⟨b, h1, h2, h3, h4⟩ |
    ⟨a, b, h1, h2, h3, h4⟩
  · cases who
    · exact Or.inr (Or.inr (Or.inl ⟨c.counter + 1, by simp [ccStep, h1, h2, h3]⟩))
    · exact Or.inr (Or.inl ⟨c.counter + 1, by simp [ccStep, h1, h2, h3]⟩)
  · cases who
    · refine Or.inr (Or.inr (Or.inr ⟨a, c.counter + 1, ?_, ?_, ?_, ?_⟩))
      · simp [ccStep, h1, h2]
      · simp [ccStep, h1, h2]
      · simp only [ne_eq]
        omega
      · simp [ccStep, h1, h2, h3]
    · exact Or.inr (Or.inl ⟨a, by simp [ccStep, h1, h2, h3, h4]⟩)
  · cases who
    · exact Or.inr (Or.inr (Or.inl ⟨b, by simp [ccStep, h1, h2, h3, h4]⟩))
    · refine Or.inr (Or.inr (Or.inr ⟨c.counter + 1, b, ?_, ?_, ?_, ?_⟩))
      · simp [ccStep, h1, h2]
      · simp [ccStep, h1, h2]
      · simp only [ne_eq]
        omega
      · simp [ccStep, h1, h2, h3]
  · cases who
    · exact Or.inr (Or.inr (Or.inr ⟨a, b, by simp [ccStep, h1, h2, h3, h4]⟩))
    · exact Or.inr (Or.inr (Or.inr ⟨a, b, by simp [ccStep, h1, h2, h3, h4]⟩))

/-- A whole schedule preserves the invariant. -/
theorem ccRun_preserves (sched : List Bool) :
    ∀ c, CInv c → CInv (ccRun c sched) := by
  induction sched with
  | nil => intro c h; exact h
  | cons s rest ih =>
    intro c h
    simpa [ccRun] using ih (ccStep c s) (ccStep_preserves c s h)

/-- Claim C4, counterexample: in the schedule where both calls pass the
cache check before either finishes, the `init` hook runs twice (on
instances 1 and 2) and the two callers return distinct instances — there
is no in-flight coalescing. -/
theorem C4_counterexample :
    (ccRun ccStart [true, false, true, false]).t1 = .done 1 ∧
    (ccRun ccStart [true, false, true, false]).t2 = .done 2 ∧
    (ccRun ccStart [true, false, true, false]).initLog = [1, 2] ∧
    (1 : Nat) ≠ 2 := by
  refine ⟨?_, ?_, ?_, ?_⟩ <;> decide

/-- Claim C4 as amended: two concurrent first calls do not coalesce — in
every schedule in which both calls pass the cache-miss check before
either completes, whenever both complete the `init` hook has run exactly
twice and the callers hold distinct instances. -/
theorem C4_no_coalescing (rest : List Bool) (a b : Nat)
    (h1 : (ccRun ccStart (true :: false :: rest)).t1 = .done a)
    (h2 : (ccRun ccStart (true :: false :: rest)).t2 = .done b) :
    a ≠ b ∧ (ccRun ccStart (true :: false :: rest)).initLog.length = 2 := by
  have heq : ccRun ccStart (true :: false :: rest) =
      ccRun (ccRun ccStart [true, false]) rest := rfl
  have hinv : CInv (ccRun (ccRun ccStart [true, false]) rest) :=
    ccRun_preserves rest _ (Or.inl ⟨by decide, by decide, by decide⟩)
  rw [heq] at h1 h2 ⊢
  rcases hinv with ⟨g1, g2, g3⟩ | ⟨x, g1, g2, g3, g4⟩ | ⟨x, g1, g2, g3, g4⟩ |
    ⟨x, y, g1, g2, g3, g4⟩
  · rw [h1] at g1; cases g1
  · rw [h2] at g2; cases g2
  · rw [h1] at g1; cases g1
  · rw [h1] at g1
    rw [h2] at g2
    cases g1
    cases g2
    exact ⟨g3, g4⟩

/-- Witness for `C4_no_coalescing` at the interleaving
`[t1, t2, t1, t2]`. -/
theorem C4_witness :
    (1 : Nat) ≠ 2 ∧ (ccRun ccStart (true :: false :: [true, false])).initLog.length = 2 :=
  C4_no_coalescing [true, false] 1 2 (by decide) (by decide)

/-!
## Claim C9 — scoped store isolation
-/

/-- A scoped write along one path leaves reads along any diverging path
unchanged: the written path and the read path agree on a prefix and then
disagree, so the update rebuilds only siblings the read never descends
into. -/
theorem navRead_navUpdate_of_diverge (f : Json → Json) (p1 p2 : List String)
    (hdiv : Diverge p1 p2) :
    ∀ cur, navRead (navUpdate cur p1 f).1 p2 = navRead cur p2 := by
  induction hdiv with
  | head hne =>
    rename_i k1 k2 t1 t2
    intro cur
    cases cur with
    | obj fs =>
      cases t1 with
      | nil =>
        simp only [navUpdate, navRead]
        rw [lookupL_setL_ne _ _ _ _ hne]
      | cons h1 t1' =>
        simp only [navUpdate, navRead]
        rw [lookupL_setL_ne _ _ _ _ hne]
    | null => cases t1 <;> simp [navUpdate]
    | bool bb => cases t1 <;> simp [navUpdate]
    | num nn => cases t1 <;> simp [navUpdate]
    | str ss => cases t1 <;> simp [navUpdate]
    | arr xs => cases t1 <;> simp [navUpdate]
  | cons hsub ih =>
    rename_i k t1 t2
    intro cur
    obtain ⟨a1, t1', rfl⟩ : ∃ a1 t1', t1 = a1 :: t1' := by
      cases hsub with
      | head _ => exact ⟨_, _, rfl⟩
      | cons _ => exact ⟨_, _, rfl⟩
    obtain ⟨a2, t2', rfl⟩ : ∃ a2 t2', t2 = a2 :: t2' := by
      cases hsub with
      | head _ => exact ⟨_, _, rfl⟩
      | cons _ => exact ⟨_, _, rfl⟩
    cases cur with
    | obj fs =>
      cases hlk : lookupL fs k with
      | some v =>
        have h1 : navUpdate (.obj fs) (k :: a1 :: t1') f =
            (.obj (setL fs k (navUpdate v (a1 :: t1') f).1),
             (navUpdate v (a1 :: t1') f).2) := by
          simp [navUpdate, hlk]
        rw [h1]
        have h2 : navRead (.obj (setL fs k (navUpdate v (a1 :: t1') f).1))
            (k :: a2 :: t2') = navRead (navUpdate v (a1 :: t1') f).1 (a2 :: t2') := by
          simp [navRead, lookupL_setL_self]
        rw [h2, ih v]
        simp [navRead, hlk]
      | none =>
        have h1 : navUpdate (.obj fs) (k :: a1 :: t1') f =
            (.obj (setL fs k (navUpdate (.obj []) (a1 :: t1') f).1),
             (navUpdate (.obj []) (a1 :: t1') f).2) := by
          simp [navUpdate, hlk]
        rw [h1]
        have h2 : navRead (.obj (setL fs k (navUpdate (.obj []) (a1 :: t1') f).1))
            (k :: a2 :: t2') =
            navRead (navUpdate (.obj []) (a1 :: t1') f).1 (a2 :: t2') := by
          simp [navRead, lookupL_setL_self]
        rw [h2, ih (.obj [])]
        simp [navRead, hlk, lookupL]
    | null => simp [navUpdate]
    | bool bb => simp [navUpdate]
    | num nn => simp [navUpdate]
    | str ss => simp [navUpdate]
    | arr xs => simp [navUpdate]

/-- Claim C9: a write through agent A's scoped database for service S is
invisible to a read through agent B's scoped database for S, and to a
read through A's scoped database for a different service T — the scoped
paths `['states', agent, service]` diverge, so the subtrees are
disjoint. -/
theorem C9_scoped_isolation (data v : Json) (agentA agentB serviceS serviceT : String)
    (hAB : agentA ≠ agentB) (hST : serviceS ≠ serviceT) :
    scopedRead (scopedWrite data agentA serviceS v) agentB serviceS =
      scopedRead data agentB serviceS ∧
    scopedRead (scopedWrite data agentA serviceS v) agentA serviceT =
      scopedRead data agentA serviceT :=
  ⟨navRead_navUpdate_of_diverge _ _ _ (Diverge.cons (Diverge.head hAB)) data,
   navRead_navUpdate_of_diverge _ _ _ (Diverge.cons (Diverge.cons (Diverge.head hST)))
     data⟩

/-- Witness for `C9_scoped_isolation` on the concrete document `dbC9`. -/
theorem C9_witness :
    scopedRead (scopedWrite dbC9 "agA" "S" (.obj [("k", .num 99)])) "agB" "S" =
      scopedRead dbC9 "agB" "S" ∧
    scopedRead (scopedWrite dbC9 "agA" "S" (.obj [("k", .num 99)])) "agA" "T" =
      scopedRead dbC9 "agA" "T" :=
  C9_scoped_isolation dbC9 (.obj [("k", .num 99)]) "agA" "agB" "S" "T"
    (by decide) (by decide)

/-!
## Claim C1 — cyclic dependency graphs
-/

/-- On the two-cycle `A ↔ B`, `initializeService` never terminates: with
any fuel it recurses `A → B → A → ...` until the fuel runs out, and it
never caches an instance (the cache write happens only after a successful
`init`, which is never reached).  The counter and log arguments quantify
over the states arising along the recursion. -/
theorem initC1_aux : ∀ fuel (c : Nat) (l : List Ev),
    ((initializeService fuel envC1 ⟨[], c, l⟩ "a1" "A").2 = .outOfFuel ∧
     (initializeService fuel envC1 ⟨[], c, l⟩ "a1" "A").1.services = []) ∧
    ((initializeService fuel envC1 ⟨[], c, l⟩ "a1" "B").2 = .outOfFuel ∧
     (initializeService fuel envC1 ⟨[], c, l⟩ "a1" "B").1.services = []) := by
  intro fuel
  induction fuel with
  | zero => intro c l; simp [initializeService]
  | succ f ih =>
    intro c l
    constructor
    · have hB := (ih (c + 1) (l ++ [Ev.factory "A" (c + 1)])).2
      rcases hrn : initializeService f envC1 ⟨[], c + 1, l ++ [Ev.factory "A" (c + 1)]⟩
          "a1" "B" with ⟨stB, rB⟩
      rw [hrn] at hB
      simp only at hB
      obtain ⟨hrB, hsB⟩ := hB
      subst hrB
      simp only [envC1, modsC1, mfA, mfB, specPlain, regC1, loaderC1] at hrn
      constructor
      · simp [initializeService, initDeps, hasService, getService, lookupL, envC1,
          modsC1, mfA, mfB, specPlain, regC1, loaderC1, isEnabled,
          resolveModuleConfig, afterFileStep, jsGet, jsGetO, jsTruthy, getDefaultConfig,
          configFilePath, inlineConfigOf, jsSpread, jsSpreadFields, entriesOf,
          allDepsOf, dedupKeepFirst, hrn]
      · simp [initializeService, initDeps, hasService, getService, lookupL, envC1,
          modsC1, mfA, mfB, specPlain, regC1, loaderC1, isEnabled,
          resolveModuleConfig, afterFileStep, jsGet, jsGetO, jsTruthy, getDefaultConfig,
          configFilePath, inlineConfigOf, jsSpread, jsSpreadFields, entriesOf,
          allDepsOf, dedupKeepFirst, hrn, hsB]
    · have hA := (ih (c + 1) (l ++ [Ev.factory "B" (c + 1)])).1
      rcases hrn : initializeService f envC1 ⟨[], c + 1, l ++ [Ev.factory "B" (c + 1)]⟩
          "a1" "A" with ⟨stA, rA⟩
      rw [hrn] at hA
      simp only at hA
      obtain ⟨hrA, hsA⟩ := hA
      subst hrA
      simp only [envC1, modsC1, mfA, mfB, specPlain, regC1, loaderC1] at hrn
      constructor
      · simp [initializeService, initDeps, hasService, getService, lookupL, envC1,
          modsC1, mfA, mfB, specPlain, regC1, loaderC1, isEnabled,
          resolveModuleConfig, afterFileStep, jsGet, jsGetO, jsTruthy, getDefaultConfig,
          configFilePath, inlineConfigOf, jsSpread, jsSpreadFields, entriesOf,
          allDepsOf, dedupKeepFirst, hrn]
      · simp [initializeService, initDeps, hasService, getService, lookupL, envC1,
          modsC1, mfA, mfB, specPlain, regC1, loaderC1, isEnabled,
          resolveModuleConfig, afterFileStep, jsGet, jsGetO, jsTruthy, getDefaultConfig,
          configFilePath, inlineConfigOf, jsSpread, jsSpreadFields, entriesOf,
          allDepsOf, dedupKeepFirst, hrn, hsA]

/-- Claim C1 (code bug): on the cyclic graph `A ↔ B`, a direct
`initializeService("a1", "A")` call has no cycle detection — for every
fuel bound it exhausts the fuel (the real code grows the JS call stack
until it overflows) and throws no circular-dependency `ServiceError`;
no instance is ever cached.  The visiting-marker detection the claim
describes exists only in `resolveDependencyOrder`, which does throw the
typed cycle error on the same graph. -/
theorem C1_cycle_not_detected :
    ∀ fuel, (initializeService fuel envC1 st0 "a1" "A").2 = .outOfFuel ∧
      (initializeService fuel envC1 st0 "a1" "A").1.services = [] ∧
      resolveDependencyOrder 10 modsC1 ["A", "B"] "a1" =
        .error (.serviceError "Circular dependency detected involving service: A"
          "A" "a1") :=
  fun fuel =>
    ⟨(initC1_aux fuel 0 []).1.1, (initC1_aux fuel 0 []).1.2, by decide⟩

/-!
## Claim C2 — diff-driven hook invocation
-/

/-- The behaviour of the diff subroutine `reloadAffectedAgents` in
isolation, for arbitrary (possibly distinct) old and new configs: for a
pair present in both (added agents and modules are skipped), structurally
differing module configs with a live `onConfigChange`-carrying instance
yield exactly that hook invocation, and structurally equal configs yield
none for the pair.  The `Nodup` hypotheses state that the parsed configs
have no duplicate object keys, which `JSON.parse` guarantees.  The
watcher itself never reaches this subroutine with distinct configs — see
the claim C2 theorem below. -/
theorem reloadAffectedAgents_diff_invokes_hook (st : MgrState) (oldConfig newConfig : Json)
    (agentId moduleName : String) (newAgentCfg oldAgentCfg oc nc : Json)
    (hAgentsNodup :
      ((entriesOf ((jsGet newConfig "agents").getD (.obj []))).map Prod.fst).Nodup)
    (hMem : (agentId, newAgentCfg) ∈ entriesOf ((jsGet newConfig "agents").getD (.obj [])))
    (hModsNodup :
      ((entriesOf ((jsGet newAgentCfg "modules").getD (.obj []))).map Prod.fst).Nodup)
    (hModMem : (moduleName, nc) ∈ entriesOf ((jsGet newAgentCfg "modules").getD (.obj [])))
    (hOldAgent : jsGetO (jsGet oldConfig "agents") agentId = some oldAgentCfg)
    (hTrA : jsTruthy oldAgentCfg = true)
    (hOldMod : jsGetO (jsGet oldAgentCfg "modules") moduleName = some oc)
    (hTrM : jsTruthy oc = true) :
    ((oc ≠ nc ∧ (∃ svc, getService st agentId moduleName = some svc ∧
        svc.spec.hasOnConfigChange = true)) →
      (⟨agentId, moduleName, oc, nc⟩ : InvEv) ∈
        reloadAffectedAgents st oldConfig newConfig) ∧
    (oc = nc → ∀ e ∈ reloadAffectedAgents st oldConfig newConfig,
      ¬(e.agentId = agentId ∧ e.moduleName = moduleName)) := by
  constructor
  · rintro ⟨hne, svc, hsvc, hhook⟩
    unfold reloadAffectedAgents
    refine (mem_flatMapL _ _ _).mpr ⟨(agentId, newAgentCfg), hMem, ?_⟩
    simp only [hOldAgent, hTrA]
    simp only [Bool.true_eq_false, if_false]
    refine (mem_flatMapL _ _ _).mpr ⟨(moduleName, nc), hModMem, ?_⟩
    simp only [hOldMod, hTrM]
    simp only [Bool.true_eq_false, if_false]
    rw [if_pos hne]
    unfold handleModuleConfigChange
    rw [hsvc]
    simp [hhook]
  · intro heq e he hid
    unfold reloadAffectedAgents at he
    obtain ⟨ap, hap, he1⟩ := (mem_flatMapL _ _ _).mp he
    rcases ap with ⟨aid, acfg⟩
    dsimp only at he1
    rcases hjo : jsGetO (jsGet oldConfig "agents") aid with _ | oac
    · rw [hjo] at he1; simp at he1
    · rw [hjo] at he1
      dsimp only at he1
      by_cases htr : jsTruthy oac = false
      · rw [if_pos htr] at he1; simp at he1
      · rw [if_neg htr] at he1
        obtain ⟨mp, hmp, he2⟩ := (mem_flatMapL _ _ _).mp he1
        rcases mp with ⟨mid, ncfg⟩
        dsimp only at he2
        rcases hjm : jsGetO (jsGet oac "modules") mid with _ | omc
        · rw [hjm] at he2; simp at he2
        · rw [hjm] at he2
          dsimp only at he2
          by_cases htm : jsTruthy omc = false
          · rw [if_pos htm] at he2; simp at he2
          · rw [if_neg htm] at he2
            by_cases hne : omc ≠ ncfg
            · rw [if_pos hne] at he2
              unfold handleModuleConfigChange at he2
              rcases hsv : getService st aid mid with _ | svc2
              · rw [hsv] at he2; simp at he2
              · rw [hsv] at he2
                dsimp only at he2
                by_cases hh : svc2.spec.hasOnConfigChange = true
                · rw [if_pos hh] at he2
                  simp only [List.mem_singleton] at he2
                  subst he2
                  rcases hid with ⟨hidA, hidM⟩
                  simp only at hidA hidM
                  subst hidA
                  subst hidM
                  have hlook1 := lookupL_eq_of_mem_of_nodup _ hAgentsNodup _ _ hap
                  have hlook2 := lookupL_eq_of_mem_of_nodup _ hAgentsNodup _ _ hMem
                  rw [hlook2] at hlook1
                  have hacfg : acfg = newAgentCfg := by
                    injection hlook1 with h
                    exact h.symm
                  subst hacfg
                  have hlook3 := lookupL_eq_of_mem_of_nodup _ hModsNodup _ _ hmp
                  have hlook4 := lookupL_eq_of_mem_of_nodup _ hModsNodup _ _ hModMem
                  rw [hlook4] at hlook3
                  have hncfg : ncfg = nc := by
                    injection hlook3 with h
                    exact h.symm
                  subst hncfg
                  rw [hOldAgent] at hjo
                  have hoac : oac = oldAgentCfg := by
                    injection hjo with h
                    exact h.symm
                  subst hoac
                  rw [hOldMod] at hjm
                  have homc : omc = oc := by
                    injection hjm with h
                    exact h.symm
                  subst homc
                  exact hne heq
                · rw [if_neg hh] at he2; simp at he2
            · rw [if_neg hne] at he2; simp at he2

/-- `reloadAffectedAgents_diff_invokes_hook` at the concrete configs
`oldC2`/`newC2`: handed genuinely distinct configs, the subroutine would
invoke the hook of the changed module `M` and not of the unchanged
module `N`. -/
theorem reloadAffectedAgents_diff_example :
    (⟨"a1", "M", .obj [("x", .num 1)], .obj [("x", .num 2)]⟩ : InvEv) ∈
      reloadAffectedAgents stC2 oldC2 newC2 ∧
    (∀ e ∈ reloadAffectedAgents stC2 oldC2 newC2,
      ¬(e.agentId = "a1" ∧ e.moduleName = "N")) :=
  ⟨(reloadAffectedAgents_diff_invokes_hook stC2 oldC2 newC2 "a1" "M"
      (.obj [("name", .str "Agent One"), ("enabled", .bool true),
        ("modules", .obj [("M", .obj [("x", .num 2)]), ("N", .obj [("y", .num 5)])])])
      (.obj [("name", .str "Agent One"), ("enabled", .bool true),
        ("modules", .obj [("M", .obj [("x", .num 1)]), ("N", .obj [("y", .num 5)])])])
      (.obj [("x", .num 1)]) (.obj [("x", .num 2)])
      (by decide) (by decide) (by decide) (by decide) (by decide) (by decide)
      (by decide) (by decide)).1
    ⟨by decide, ⟨1, specWithHook⟩, by decide, by decide⟩,
   (reloadAffectedAgents_diff_invokes_hook stC2 oldC2 newC2 "a1" "N"
      (.obj [("name", .str "Agent One"), ("enabled", .bool true),
        ("modules", .obj [("M", .obj [("x", .num 2)]), ("N", .obj [("y", .num 5)])])])
      (.obj [("name", .str "Agent One"), ("enabled", .bool true),
        ("modules", .obj [("M", .obj [("x", .num 1)]), ("N", .obj [("y", .num 5)])])])
      (.obj [("y", .num 5)]) (.obj [("y", .num 5)])
      (by decide) (by decide) (by decide) (by decide) (by decide) (by decide)
      (by decide) (by decide)).2 (by decide)⟩

/-- Claim C2 (code bug): a watcher reload pass never invokes any
config-change hook.  `handleConfigChange` awaits `loadAgentsConfig()` —
which overwrites the stored config with the newly parsed one — before
reading the "old" config through `getAgentsConfig()`, so
`reloadAffectedAgents` always compares the new config with itself and no
pair ever differs; a failed load performs no invocations either.  The
`Nodup` hypotheses state that the parsed config has no duplicate object
keys, which `JSON.parse` guarantees. -/
theorem C2_reload_never_invokes_hook (agentsConfig : Option Json) (v : Json)
    (st : MgrState)
    (hA : ((entriesOf ((jsGet v "agents").getD (.obj []))).map Prod.fst).Nodup)
    (hM : ∀ p ∈ entriesOf ((jsGet v "agents").getD (.obj [])),
      ((entriesOf ((jsGet p.2 "modules").getD (.obj []))).map Prod.fst).Nodup) :
    (handleConfigChange agentsConfig (some v) st).2 = [] ∧
    (handleConfigChange agentsConfig none st).2 = [] := by
  constructor
  · unfold handleConfigChange loadAgentsConfig
    dsimp only
    by_cases htv : jsTruthy v = true
    · rw [if_pos htv]
      dsimp only
      rw [if_neg (by simp [htv])]
      dsimp only
      rw [List.eq_nil_iff_forall_not_mem]
      intro e he
      unfold reloadAffectedAgents at he
      obtain ⟨ap, hap, he1⟩ := (mem_flatMapL _ _ _).mp he
      rcases ap with ⟨aid, acfg⟩
      dsimp only at he1
      have hlook := lookupL_eq_of_mem_of_nodup _ hA _ _ hap
      have hjo : jsGetO (jsGet v "agents") aid = some acfg := by
        rcases hag : jsGet v "agents" with _ | ag
        · rw [hag] at hap
          simp [entriesOf] at hap
        · rw [hag] at hlook hap
          cases ag with
          | obj fs =>
            simpa [jsGetO, jsGet, entriesOf] using hlook
          | null => simp [entriesOf] at hap
          | bool b => simp [entriesOf] at hap
          | num n => simp [entriesOf] at hap
          | str sx => simp [entriesOf] at hap
          | arr xs => simp [entriesOf] at hap
      rw [hjo] at he1
      dsimp only at he1
      by_cases htra : jsTruthy acfg = false
      · rw [if_pos htra] at he1
        simp at he1
      · rw [if_neg htra] at he1
        obtain ⟨mp, hmp, he2⟩ := (mem_flatMapL _ _ _).mp he1
        rcases mp with ⟨mid, ncfg⟩
        dsimp only at he2
        have hMnodup := hM (aid, acfg) hap
        have hlook2 := lookupL_eq_of_mem_of_nodup _ hMnodup _ _ hmp
        have hjm : jsGetO (jsGet acfg "modules") mid = some ncfg := by
          rcases hmod : jsGet acfg "modules" with _ | ms
          · rw [hmod] at hmp
            simp [entriesOf] at hmp
          · rw [hmod] at hlook2 hmp
            cases ms with
            | obj gs =>
              simpa [jsGetO, jsGet, entriesOf] using hlook2
            | null => simp [entriesOf] at hmp
            | bool b => simp [entriesOf] at hmp
            | num n => simp [entriesOf] at hmp
            | str sx => simp [entriesOf] at hmp
            | arr xs => simp [entriesOf] at hmp
        rw [hjm] at he2
        dsimp only at he2
        by_cases htrm : jsTruthy ncfg = false
        · rw [if_pos htrm] at he2
          simp at he2
        · rw [if_neg htrm] at he2
          rw [if_neg (by simp)] at he2
          simp at he2
    · rw [if_neg htv]
  · rfl

/-- Witness for `C2_reload_never_invokes_hook` at the failing input of
the claim: the stored config `oldC2` changes on disk to `newC2`, module
`M` of agent `a1` genuinely differs between them and has a live instance
with an `onConfigChange` hook, yet the watcher pass invokes nothing. -/
theorem C2_reload_witness :
    (handleConfigChange (some oldC2) (some newC2) stC2).2 = [] ∧
    oldC2 ≠ newC2 ∧
    (jsGetO (jsGet oldC2 "agents") "a1").bind (fun a => jsGetO (jsGet a "modules") "M") ≠
      (jsGetO (jsGet newC2 "agents") "a1").bind (fun a => jsGetO (jsGet a "modules") "M") ∧
    getService stC2 "a1" "M" = some ⟨1, specWithHook⟩ ∧
    specWithHook.hasOnConfigChange = true :=
  ⟨(C2_reload_never_invokes_hook (some oldC2) newC2 stC2 (by decide) (by decide)).1,
   by decide, by decide, by decide, by decide⟩

/-!
## Claim C6 — eager set and topological order
-/

/-- Decompose an equation `L ++ [a] = p ++ s :: q`: either `s` is the
appended last element, or the split point lies inside `L`. -/
theorem append_singleton_decomp {α : Type} (L : List α) (a : α) (p : List α)
    (s : α) (q : List α) (h : L ++ [a] = p ++ s :: q) :
    (q = [] ∧ p = L ∧ s = a) ∨ (∃ q2, q = q2 ++ [a] ∧ L = p ++ s :: q2) := by
  rcases q.eq_nil_or_concat with rfl | ⟨q2, b, rfl⟩
  · have hlen : L.length = p.length := by
      have := congrArg List.length h
      simpa using this
    obtain ⟨h1, h2⟩ := List.append_inj h hlen
    injection h2 with h3 _
    exact Or.inl ⟨rfl, h1.symm, h3.symm⟩
  · have h' : L ++ [a] = (p ++ s :: q2) ++ [b] := by
      rw [h]
      simp
    have hlen : L.length = (p ++ s :: q2).length := by
      have h2 := congrArg List.length h'
      simp only [List.length_append, List.length_cons] at h2 ⊢
      omega
    obtain ⟨h1, h2⟩ := List.append_inj h' hlen
    injection h2 with h3 _
    exact Or.inr ⟨q2, by rw [h3, List.concat_eq_append], h1⟩

/-- In a `GoodOrder` list, every element is preceded by all of its
dependencies. -/
theorem GoodOrder.deps_before {deps : String → List String} :
    ∀ {L : List String}, GoodOrder deps L → ∀ p s q, L = p ++ s :: q →
      ∀ d ∈ deps s, d ∈ p := by
  intro L h
  induction h with
  | nil =>
    intro p s q hpq
    exact absurd hpq (by simp)
  | snoc hg hdeps ih =>
    rename_i L' s'
    intro p s q hpq
    rcases append_singleton_decomp L' s' p s q hpq with ⟨rfl, rfl, rfl⟩ | ⟨q2, rfl, hL⟩
    · exact hdeps
    · exact ih p s q2 hL

/-- A node listed by `visitDeps` lies in the requested set. -/
theorem visitDeps_subset (modules : List (String × LoadedModule))
    (serviceNames : List String) (s d : String)
    (hd : d ∈ visitDeps modules serviceNames s) : d ∈ serviceNames := by
  obtain ⟨_, hmem⟩ := List.mem_filter.mp hd
  simpa using hmem

/-- What the dependency loop of `visit` guarantees, given the guarantee
for each recursive call. -/
theorem visitList_ok (modules : List (String × LoadedModule))
    (serviceNames : List String)
    (visitF : String → VisitSt → Except VisitErr VisitSt)
    (H : ∀ d st st', visitF d st = .ok st' → VOk modules serviceNames d st st') :
    ∀ (l : List String) (st st' : VisitSt), visitList visitF l st = .ok st' →
      st'.visiting = st.visiting ∧
      (∀ x ∈ st.visited, x ∈ st'.visited) ∧
      (∀ x ∈ st.order, x ∈ st'.order) ∧
      (∀ d ∈ l, d ∈ st'.visited) ∧
      (∀ x ∈ st'.visited, x ∈ st.visited ∨ x ∈ l ∨ x ∈ serviceNames) ∧
      (StInv modules serviceNames st → StInv modules serviceNames st') := by
  intro l
  induction l with
  | nil =>
    intro st st' h
    simp only [visitList] at h
    injection h with h
    subst h
    exact ⟨rfl, fun x hx => hx, fun x hx => hx, by simp, fun x hx => Or.inl hx, id⟩
  | cons d ds ih =>
    intro st st' h
    simp only [visitList] at h
    rcases hv : visitF d st with e | st2
    · rw [hv] at h; simp at h
    · rw [hv] at h
      dsimp only at h
      obtain ⟨m1, m2, m3, m4, m5, m6⟩ := ih st2 st' h
      obtain ⟨v1, v2, v3, v4, v5, v6⟩ := H d st st2 hv
      refine ⟨m1.trans v1, fun x hx => m2 x (v2 x hx), fun x hx => m3 x (v3 x hx),
        ?_, ?_, fun hi => m6 (v6 hi)⟩
      · intro e he
        rcases List.mem_cons.mp he with rfl | he'
        · exact m2 _ v4
        · exact m4 _ he'
      · intro x hx
        rcases m5 x hx with hx2 | hds | hn
        · rcases v5 x hx2 with ha | hb | hc
          · exact Or.inl ha
          · exact Or.inr (Or.inl (hb ▸ List.mem_cons_self d ds))
          · exact Or.inr (Or.inr hc)
        · exact Or.inr (Or.inl (List.mem_cons_of_mem d hds))
        · exact Or.inr (Or.inr hn)

/-- Every successful `visit` satisfies `VOk`: markers restored, monotone
growth, the node completed, new completions in the requested set, and the
accumulator invariant preserved. -/
theorem visit_ok (modules : List (String × LoadedModule)) (serviceNames : List String) :
    ∀ (n : Nat) (name : String) (st st' : VisitSt),
      visit modules serviceNames n name st = .ok st' →
      VOk modules serviceNames name st st' := by
  intro n
  induction n with
  | zero => intro name st st' h; simp [visit] at h
  | succ f ih =>
    intro name st st' h
    simp only [visit] at h
    by_cases h1 : name ∈ st.visiting
    · rw [if_pos h1] at h; simp at h
    · rw [if_neg h1] at h
      by_cases h2 : name ∈ st.visited
      · rw [if_pos h2] at h
        injection h with h
        subst h
        exact ⟨rfl, fun x hx => hx, fun x hx => hx, h2, fun x hx => Or.inl hx, id⟩
      · rw [if_neg h2] at h
        rcases hvl : visitList (visit modules serviceNames f)
            (visitDeps modules serviceNames name)
            { st with visiting := name :: st.visiting } with e | st2
        · rw [hvl] at h; simp at h
        · rw [hvl] at h
          dsimp only at h
          injection h with h
          subst h
          obtain ⟨m1, m2, m3, m4, m5, m6⟩ :=
            visitList_ok modules serviceNames _ ih _ _ _ hvl
          have p1 : st2.visiting = name :: st.visiting := m1
          refine ⟨?_, ?_, ?_, ?_, ?_, ?_⟩
          · show st2.visiting.erase name = st.visiting
            rw [p1]
            exact List.erase_cons_head name st.visiting
          · intro x hx
            exact List.mem_cons_of_mem _ (m2 x hx)
          · intro x hx
            exact List.mem_append_left _ (m3 x hx)
          · exact List.mem_cons_self _ _
          · intro x hx
            rcases List.mem_cons.mp hx with rfl | hx2
            · exact Or.inr (Or.inl rfl)
            · rcases m5 x hx2 with ha | hb | hc
              · exact Or.inl ha
              · exact Or.inr (Or.inr (visitDeps_subset modules serviceNames name x hb))
              · exact Or.inr (Or.inr hc)
          · intro hInv
            have hInv1 : StInv modules serviceNames
                { st with visiting := name :: st.visiting } := hInv
            obtain ⟨i1, i2, i3⟩ := m6 hInv1
            refine ⟨?_, ?_, ?_⟩
            · intro x hx
              rcases List.mem_append.mp hx with hx1 | hx2
              · exact List.mem_cons_of_mem _ (i1 x hx1)
              · rw [List.mem_singleton.mp hx2]
                exact List.mem_cons_self _ _
            · intro x hx
              rcases List.mem_cons.mp hx with rfl | hx2
              · exact List.mem_append_right _ (List.mem_singleton.mpr rfl)
              · exact List.mem_append_left _ (i2 x hx2)
            · exact GoodOrder.snoc i3 (fun d hd => i2 d (m4 d hd))

/-- What the top-level loop of `resolveDependencyOrder` guarantees. -/
theorem visitRoots_ok (modules : List (String × LoadedModule))
    (serviceNames : List String) (fuel : Nat) :
    ∀ (roots : List String) (st st' : VisitSt),
      visitRoots modules serviceNames fuel roots st = .ok st' →
      (∀ x ∈ st.visited, x ∈ st'.visited) ∧
      (∀ r ∈ roots, r ∈ st'.visited) ∧
      (∀ x ∈ st'.visited, x ∈ st.visited ∨ x ∈ roots ∨ x ∈ serviceNames) ∧
      (StInv modules serviceNames st → StInv modules serviceNames st') := by
  intro roots
  induction roots with
  | nil =>
    intro st st' h
    simp only [visitRoots] at h
    injection h with h
    subst h
    exact ⟨fun x hx => hx, by simp, fun x hx => Or.inl hx, id⟩
  | cons r rs ih =>
    intro st st' h
    simp only [visitRoots] at h
    by_cases h1 : r ∈ st.visited
    · rw [if_pos h1] at h
      obtain ⟨m1, m2, m3, m4⟩ := ih st st' h
      refine ⟨m1, ?_, ?_, m4⟩
      · intro e he
        rcases List.mem_cons.mp he with rfl | h'
        · exact m1 e h1
        · exact m2 e h'
      · intro x hx
        rcases m3 x hx with ha | hb | hc
        · exact Or.inl ha
        · exact Or.inr (Or.inl (List.mem_cons_of_mem r hb))
        · exact Or.inr (Or.inr hc)
    · rw [if_neg h1] at h
      rcases hv : visit modules serviceNames fuel r st with e | st2
      · rw [hv] at h; simp at h
      · rw [hv] at h
        dsimp only at h
        obtain ⟨m1, m2, m3, m4⟩ := ih st2 st' h
        obtain ⟨v1, v2, v3, v4, v5, v6⟩ := visit_ok modules serviceNames fuel r st st2 hv
        refine ⟨fun x hx => m1 x (v2 x hx), ?_, ?_, fun hi => m4 (v6 hi)⟩
        · intro e he
          rcases List.mem_cons.mp he with rfl | h'
          · exact m1 e v4
          · exact m2 e h'
        · intro x hx
          rcases m3 x hx with ha | hb | hc
          · rcases v5 x ha with ha1 | hb1 | hc1
            · exact Or.inl ha1
            · exact Or.inr (Or.inl (hb1 ▸ List.mem_cons_self r rs))
            · exact Or.inr (Or.inr hc1)
          · exact Or.inr (Or.inl (List.mem_cons_of_mem r hb))
          · exact Or.inr (Or.inr hc)

/-- Claim C6 as amended: the eager set of an agent consists exactly of its
declared modules that are loaded with a service factory and whose inline
module config carries a non-nullish falsy `lazy` (`false`, `0` or `""`;
the `??` defaults to `true` when the inline config omits `lazy` or sets
it to null — manifest defaults and external files are not consulted);
and every order `resolveDependencyOrder` returns lists exactly the
requested services, each preceded by all of its in-set dependencies (a
topological order). -/
theorem C6_eager_set_and_topo_order
    (modules : List (String × LoadedModule)) (entry : AgentEntry) (m : String)
    (fuel : Nat) (serviceNames : List String) (agentId : String)
    (order : List String)
    (h : resolveDependencyOrder fuel modules serviceNames agentId = .ok order) :
    (m ∈ eagerServicesFor modules entry ↔
      (m ∈ entry.modulesCfg.map Prod.fst ∧
       (∃ lm, lookupL modules m = some lm ∧ lm.loaded = true ∧
         lm.serviceFactory ≠ none) ∧
       jsTruthy (jsNullish (jsGetO (lookupL entry.modulesCfg m) "lazy") (.bool true)) =
         false)) ∧
    (∀ s, s ∈ order ↔ s ∈ serviceNames) ∧
    (∀ p s q, order = p ++ s :: q → ∀ d ∈ visitDeps modules serviceNames s, d ∈ p) := by
  have hpart1 : m ∈ eagerServicesFor modules entry ↔
      (m ∈ entry.modulesCfg.map Prod.fst ∧
       (∃ lm, lookupL modules m = some lm ∧ lm.loaded = true ∧
         lm.serviceFactory ≠ none) ∧
       jsTruthy (jsNullish (jsGetO (lookupL entry.modulesCfg m) "lazy") (.bool true)) =
         false) := by
    constructor
    · intro hm
      obtain ⟨hmem, hpred⟩ := List.mem_filter.mp hm
      dsimp only at hpred
      rcases hlm : lookupL modules m with _ | lm
      · rw [hlm] at hpred; simp at hpred
      · rw [hlm] at hpred
        dsimp only at hpred
        by_cases hld : lm.loaded = true
        · rw [if_pos hld] at hpred
          rcases hsf : lm.serviceFactory with _ | spec
          · rw [hsf] at hpred; simp at hpred
          · rw [hsf] at hpred
            dsimp only at hpred
            refine ⟨hmem, ⟨lm, rfl, hld, by rw [hsf]; simp⟩, ?_⟩
            simpa using hpred
        · rw [if_neg hld] at hpred; simp at hpred
    · rintro ⟨hmem, ⟨lm, hlm, hld, hsf⟩, hlazy⟩
      refine List.mem_filter.mpr ⟨hmem, ?_⟩
      dsimp only
      rw [hlm]
      dsimp only
      rw [if_pos hld]
      rcases hsf2 : lm.serviceFactory with _ | spec
      · exact absurd hsf2 hsf
      · dsimp only
        simpa using hlazy
  unfold resolveDependencyOrder at h
  rcases hvr : visitRoots modules serviceNames fuel serviceNames ⟨[], [], []⟩
      with e | stF
  · rw [hvr] at h
    rcases e with s | _ <;> simp at h
  · rw [hvr] at h
    dsimp only at h
    injection h with h
    subst h
    obtain ⟨m1, m2, m3, m4⟩ := visitRoots_ok modules serviceNames fuel _ _ _ hvr
    have hInv0 : StInv modules serviceNames ⟨[], [], []⟩ :=
      ⟨by simp, by simp, GoodOrder.nil⟩
    obtain ⟨i1, i2, i3⟩ := m4 hInv0
    refine ⟨hpart1, ?_, ?_⟩
    · intro s
      constructor
      · intro hs
        rcases m3 s (i1 s hs) with ha | hb | hc
        · simp at ha
        · exact hb
        · exact hc
      · intro hs
        exact i2 s (m2 s hs)
    · intro p s q hpq d hd
      exact GoodOrder.deps_before i3 p s q hpq d hd

/-- Claim C6, counterexample to the claim as stated: module `M` declares
`lazy` with manifest default `false` and the agent declares `M` with an
empty inline config, so the 3-level-precedence resolved `lazy` is `false`
(the claim would have `M` eagerly initialized), yet the eager set the
code computes is empty and `initializeEagerServices` initializes
nothing — the inline config alone decides, defaulting to lazy. -/
theorem C6_counterexample :
    (resolveModuleConfig loaderC6 (fun _ => none) "a1" "M" mfC6).toOption.bind
      (fun cfg => jsGet cfg "lazy") = some (.bool false) ∧
    eagerServicesFor modsC6 entryC6 = [] ∧
    initializeEagerServices 10 envC6 st0 (getEnabledAgents envC6.registry) =
      (st0, none) := by
  refine ⟨?_, ?_, ?_⟩ <;> decide

/-- Witness for `C6_eager_set_and_topo_order` at the acyclic scenario
`S2 → S1` with request list `[S2, S1]`, whose resolved order is
`[S1, S2]`. -/
theorem C6_witness :
    ("S2" ∈ (["S1", "S2"] : List String) ↔ "S2" ∈ (["S2", "S1"] : List String)) :=
  (C6_eager_set_and_topo_order modsS ⟨"Agent One", true, [("S1", .obj [])]⟩ "S1"
    10 ["S2", "S1"] "a1" ["S1", "S2"] (by decide)).2.1 "S2"

end Ampelos
